import Mathlib

/-
Shallow embedding of the ramKnightASCII simulation engine (src/main.py).

Modelling conventions:
- A level state is a list of rows of characters, as in the Python source
  (a list of lists of single characters).
- Positions are pairs of integers, because the source computes candidate
  positions such as col - 1 that can be negative before the in_bounds check.
- Python indexing errors are made explicit: at_posE and set_at_posE return
  an Except value, with Err.oob produced exactly when the index is outside
  [0, height) x [0, width) of the actual list structure.  (Python would wrap
  a negative index silently; since the safety theorems show no out-of-range
  access ever happens on the guarded paths, the two semantics agree on every
  reachable behaviour, and the error model makes the bounds-safety claim
  expressible.)
- The unbounded while loops of the source are given an explicit fuel
  argument; exhausting the fuel produces Err.fuelOut.  Unpacking the None
  returned by next_pos on an unknown direction symbol (a TypeError in
  Python) is modelled as Err.badDir.
- The eprint error reporting of validate_state is modelled by returning the
  list of emitted message strings next to the status code.
- The trailing determine_new_state(s) expression at the end of the movement
  while-loop body in the source discards its result and has no effect; it is
  omitted.
-/

abbrev Grid := List (List Char)

inductive Err where
  | oob : Err
  | fuelOut : Err
  | badDir : Err
deriving DecidableEq

/-- Exit codes of the source (module constants _victory etc.). -/
def _victory : Nat := 0

def _invalid : Nat := 1

def _unfinished : Nat := 2

def _defeated : Nat := 3

/-- Membership in the source constant _valid_chars = "G@YFMm_. xoWwv^<>|+-". -/
def valid_char (c : Char) : Bool :=
  c == 'G' || c == '@' || c == 'Y' || c == 'F' || c == 'M' || c == 'm' ||
  c == '_' || c == '.' || c == ' ' || c == 'x' || c == 'o' || c == 'W' ||
  c == 'w' || c == 'v' || c == '^' || c == '<' || c == '>' || c == '|' ||
  c == '+' || c == '-'

/-- at_pos of the source: read the character at row i, col j. -/
def at_posE (s : Grid) (row col : Int) : Except Err Char :=
  if 0 ≤ row ∧ 0 ≤ col then
    match s.get? row.toNat with
    | some r =>
      match r.get? col.toNat with
      | some c => .ok c
      | none => .error .oob
    | none => .error .oob
  else .error .oob

/-- set_at_pos of the source: write character c at row i, col j. -/
def set_at_posE (s : Grid) (row col : Int) (c : Char) : Except Err Grid :=
  if 0 ≤ row ∧ 0 ≤ col then
    match s.get? row.toNat with
    | some r =>
      if col.toNat < r.length then .ok (s.set row.toNat (r.set col.toNat c))
      else .error .oob
    | none => .error .oob
  else .error .oob

/-- bounds of the source: (height, width), width read off the first row. -/
def bounds (s : Grid) : Nat × Nat := (s.length, (s.headD []).length)

/-- next_pos of the source; returns none on an unknown direction symbol. -/
def next_pos (row col : Int) (dir : Char) : Option (Int × Int) :=
  if dir == 'h' then some (row, col - 1)
  else if dir == 'l' then some (row, col + 1)
  else if dir == 'k' then some (row - 1, col)
  else if dir == 'j' then some (row + 1, col)
  else none

/-- in_bounds of the source. -/
def in_bounds (height width : Nat) (row col : Int) : Bool :=
  decide (0 ≤ row) && decide (0 ≤ col) &&
  decide (row < (height : Int)) && decide (col < (width : Int))

/-- Helper for find_pos: positions of x in one row (row index i, first col j). -/
def find_in_row (x : Char) (i : Nat) : Nat → List Char → List (Int × Int)
  | _, [] => []
  | j, c :: cs =>
    if c == x then ((i : Int), (j : Int)) :: find_in_row x i (j + 1) cs
    else find_in_row x i (j + 1) cs

def find_pos_aux (x : Char) : Nat → Grid → List (Int × Int)
  | _, [] => []
  | i, r :: rs => find_in_row x i 0 r ++ find_pos_aux x (i + 1) rs

/-- find_pos of the source: row-major positions of character x. -/
def find_pos (s : Grid) (x : Char) : List (Int × Int) :=
  find_pos_aux x 0 s

/-- Scan of determine_new_state over the row-major character sequence. -/
def dns_list : List Char → Nat
  | [] => _unfinished
  | c :: rest =>
    if c == 'Y' then _defeated
    else if c == '@' then _victory
    else dns_list rest

/-- determine_new_state of the source. -/
def determine_new_state (s : Grid) : Nat := dns_list s.flatten

/-- The inner while loop of the sliding-weight branch of move: (row, col) is
the current position of the sliding weight w. -/
def slide_loop (fuel : Nat) (s : Grid) (dir : Char) (row col : Int)
    (height width : Nat) : Except Err Grid :=
  match fuel with
  | 0 => .error .fuelOut
  | Nat.succ fuel =>
    match next_pos row col dir with
    | none => .error .badDir
    | some (nrow, ncol) =>
      if in_bounds height width nrow ncol then
        match at_posE s nrow ncol with
        | .error e => .error e
        | .ok nc =>
          if nc == ' ' || nc == '_' || nc == '.' || nc == 'x' || nc == '|' ||
              nc == '-' || nc == '+' then
            match set_at_posE s row col ' ' with
            | .error e => .error e
            | .ok s1 =>
              match set_at_posE s1 nrow ncol 'w' with
              | .error e => .error e
              | .ok s2 => slide_loop fuel s2 dir nrow ncol height width
          else if nc == 'o' then
            match set_at_posE s row col ' ' with
            | .error e => .error e
            | .ok s1 =>
              match set_at_posE s1 nrow ncol '_' with
              | .error e => .error e
              | .ok s2 => .ok s2
          else .ok s
      else .ok s

/-- The main while loop of move: (row, col) is the current ram position. -/
def move_loop (fuel : Nat) (s : Grid) (dir : Char) (row col : Int)
    (height width : Nat) : Except Err (Nat × Grid) :=
  match fuel with
  | 0 => .error .fuelOut
  | Nat.succ fuel =>
    match next_pos row col dir with
    | none => .error .badDir
    | some (nrow, ncol) =>
      if in_bounds height width nrow ncol then
        match at_posE s nrow ncol with
        | .error e => .error e
        | .ok c =>
          if c == ' ' || c == '_' || c == '.' then
            match set_at_posE s nrow ncol 'G' with
            | .error e => .error e
            | .ok s1 =>
              match set_at_posE s1 row col '.' with
              | .error e => .error e
              | .ok s2 => move_loop fuel s2 dir nrow ncol height width
          else if c == 'M' then
            match set_at_posE s nrow ncol 'm' with
            | .error e => .error e
            | .ok s1 => .ok (_unfinished, s1)
          else if c == 'm' then
            match set_at_posE s nrow ncol '_' with
            | .error e => .error e
            | .ok s1 => .ok (_unfinished, s1)
          else if c == 'v' || c == '^' || c == '<' || c == '>' then
            match set_at_posE s nrow ncol '_' with
            | .error e => .error e
            | .ok s1 => .ok (_unfinished, s1)
          else if c == 'F' then
            match set_at_posE s row col '@' with
            | .error e => .error e
            | .ok s1 => .ok (_victory, s1)
          else if c == 'x' || c == '|' || c == '-' then
            match set_at_posE s row col 'Y' with
            | .error e => .error e
            | .ok s1 => .ok (_defeated, s1)
          else if c == 'o' then
            match set_at_posE s nrow ncol 'G' with
            | .error e => .error e
            | .ok s1 =>
              match set_at_posE s1 row col '.' with
              | .error e => .error e
              | .ok s2 => .ok (_unfinished, s2)
          else if c == 'W' then
            match next_pos nrow ncol dir with
            | none => .error .badDir
            | some (orow, ocol) =>
              if in_bounds height width orow ocol then
                match at_posE s orow ocol with
                | .error e => .error e
                | .ok nc =>
                  if nc == ' ' || nc == '_' || nc == '.' || nc == 'x' ||
                      nc == '|' || nc == '-' || nc == '+' then
                    match set_at_posE s orow ocol 'W' with
                    | .error e => .error e
                    | .ok s1 =>
                      match set_at_posE s1 nrow ncol 'G' with
                      | .error e => .error e
                      | .ok s2 =>
                        match set_at_posE s2 row col '.' with
                        | .error e => .error e
                        | .ok s3 => .ok (determine_new_state s3, s3)
                  else if nc == 'o' then
                    match set_at_posE s orow ocol '_' with
                    | .error e => .error e
                    | .ok s1 =>
                      match set_at_posE s1 nrow ncol 'G' with
                      | .error e => .error e
                      | .ok s2 =>
                        match set_at_posE s2 row col '.' with
                        | .error e => .error e
                        | .ok s3 => .ok (determine_new_state s3, s3)
                  else .ok (determine_new_state s, s)
              else .ok (_unfinished, s)
          else if c == 'w' then
            match slide_loop fuel s dir nrow ncol height width with
            | .error e => .error e
            | .ok s1 => .ok (_unfinished, s1)
          else .ok (_invalid, s)
      else .ok (_unfinished, s)

/-- move of the source. -/
def move (fuel : Nat) (s : Grid) (dir : Char) : Except Err (Nat × Grid) :=
  let height := (bounds s).1
  let width := (bounds s).2
  match find_pos s 'G' with
  | [] =>
    match find_pos s '@' with
    | _ :: _ => .ok (_victory, s)
    | [] =>
      match find_pos s 'Y' with
      | _ :: _ => .ok (_defeated, s)
      | [] => .ok (_invalid, s)
  | (row, col) :: _ => move_loop fuel s dir row col height width

/-- Membership in the laser obstacle string "FmMwWY<>^v" of update_lasers. -/
def laser_blocking (c : Char) : Bool :=
  c == 'F' || c == 'm' || c == 'M' || c == 'w' || c == 'W' || c == 'Y' ||
  c == '<' || c == '>' || c == '^' || c == 'v'

/-- One beam-clearing pass of update_lasers: set every given position
(the positions of one of the beam characters) to a space. -/
def clear_positions (s : Grid) : List (Int × Int) → Except Err Grid
  | [] => .ok s
  | p :: ps =>
    match set_at_posE s p.1 p.2 ' ' with
    | .error e => .error e
    | .ok s1 => clear_positions s1 ps

/-- The beam-clearing prologue of update_lasers (characters |, -, +). -/
def clear_beams (s : Grid) : Except Err Grid :=
  match clear_positions s (find_pos s '|') with
  | .error e => .error e
  | .ok s1 =>
    match clear_positions s1 (find_pos s1 '-') with
    | .error e => .error e
    | .ok s2 => clear_positions s2 (find_pos s2 '+')

/-- The emitter collection of update_lasers: emitter position and trace
direction, in the order the source builds the list. -/
def collect_lasers (s : Grid) : List (Int × Int × Char) :=
  (find_pos s '<').map (fun p => (p.1, p.2, 'h')) ++
  (find_pos s '>').map (fun p => (p.1, p.2, 'l')) ++
  (find_pos s '^').map (fun p => (p.1, p.2, 'k')) ++
  (find_pos s 'v').map (fun p => (p.1, p.2, 'j'))

/-- The inner while loop of update_lasers: trace one beam from (row, col)
onward in direction dir. -/
def trace_loop (fuel : Nat) (s : Grid) (dir : Char) (row col : Int)
    (height width : Nat) : Except Err Grid :=
  match fuel with
  | 0 => .error .fuelOut
  | Nat.succ fuel =>
    if in_bounds height width row col then
      match at_posE s row col with
      | .error e => .error e
      | .ok c =>
        if c == '-' && (dir == 'j' || dir == 'k') then
          match set_at_posE s row col '+' with
          | .error e => .error e
          | .ok s1 =>
            match next_pos row col dir with
            | none => .error .badDir
            | some (r2, c2) => trace_loop fuel s1 dir r2 c2 height width
        else if c == '|' && (dir == 'h' || dir == 'l') then
          match set_at_posE s row col '+' with
          | .error e => .error e
          | .ok s1 =>
            match next_pos row col dir with
            | none => .error .badDir
            | some (r2, c2) => trace_loop fuel s1 dir r2 c2 height width
        else if c == 'G' then
          match set_at_posE s row col 'Y' with
          | .error e => .error e
          | .ok s1 => .ok s1
        else if laser_blocking c then .ok s
        else
          match
            (if dir == 'h' || dir == 'l' then set_at_posE s row col '-'
             else if dir == 'j' || dir == 'k' then set_at_posE s row col '|'
             else .ok s) with
          | .error e => .error e
          | .ok s1 =>
            match next_pos row col dir with
            | none => .error .badDir
            | some (r2, c2) => trace_loop fuel s1 dir r2 c2 height width
    else .ok s

/-- Trace the beam of one emitter (start at the cell adjacent to it). -/
def trace_laser (fuel : Nat) (height width : Nat) (s : Grid)
    (l : Int × Int × Char) : Except Err Grid :=
  match next_pos l.1 l.2.1 l.2.2 with
  | none => .error .badDir
  | some p => trace_loop fuel s l.2.2 p.1 p.2 height width

/-- The emitter iteration of update_lasers, over an explicit emitter list. -/
def trace_all (fuel : Nat) (height width : Nat) (s : Grid) :
    List (Int × Int × Char) → Except Err Grid
  | [] => .ok s
  | l :: ls =>
    match trace_laser fuel height width s l with
    | .error e => .error e
    | .ok s1 => trace_all fuel height width s1 ls

/-- update_lasers of the source: clear stale beams, collect the emitters in
the source order (all <, then >, then ^, then v), trace each beam. -/
def update_lasers (fuel : Nat) (s : Grid) : Except Err Grid :=
  match clear_beams s with
  | .error e => .error e
  | .ok s1 =>
    let height := (bounds s1).1
    let width := (bounds s1).2
    trace_all fuel height width s1 (collect_lasers s1)

/-- Message of the unequal-line-length report of validate_state. -/
def unequal_msg (i l len0 : Nat) : String :=
  "len(line " ++ toString i ++ ") = " ++ toString l ++
  " != len(line 0) = " ++ toString len0

def unequal_msg2 : String := "all lines must have the same length"

def invalid_char_msg (c : Char) (i j : Nat) : String :=
  "invalid char " ++ toString c ++ " at row " ++ toString i ++
  " col " ++ toString j

def invalid_char_msg2 : String := "all chars must be in G@YFMm_. xoWwv^<>|+-"

def no_finish_msg : String := "found no F in file"

def no_finish_msg2 : String := "file must contain at least 1"

def goat_count_msg (n : Nat) : String :=
  "file contains " ++ toString n ++ " of [G, @, Y]"

def goat_count_msg2 : String := "file must contain exactly one of these"

/-- The accumulator of the character scan of validate_state. -/
structure VScan where
  invalid : Bool
  goat : Nat
  victory : Bool
  defeated : Bool
  finish : Nat
  msgs : List String
deriving DecidableEq

/-- One cell of the validate_state scan (row i, column j, character c). -/
def vcell (st : VScan) (i j : Nat) (c : Char) : VScan :=
  let st1 :=
    if valid_char c then st
    else { st with invalid := true,
                   msgs := st.msgs ++ [invalid_char_msg c i j, invalid_char_msg2] }
  if c == 'G' then { st1 with goat := st1.goat + 1 }
  else if c == 'Y' then { st1 with goat := st1.goat + 1, defeated := true }
  else if c == '@' then { st1 with goat := st1.goat + 1, victory := true }
  else if c == 'F' then { st1 with finish := st1.finish + 1 }
  else st1

def vscan_row (i : Nat) : Nat → VScan → List Char → VScan
  | _, st, [] => st
  | j, st, c :: cs => vscan_row i (j + 1) (vcell st i j c) cs

def vscan_rows : Nat → VScan → Grid → VScan
  | _, st, [] => st
  | i, st, row :: rest => vscan_rows (i + 1) (vscan_row i 0 st row) rest

def vscan (s : Grid) : VScan :=
  vscan_rows 0 ⟨false, 0, false, false, 0, []⟩ s

/-- The generator expression of validate_state that finds the first row whose
length differs from the length of row 0 (returns its index and length). -/
def find_bad_row (len0 : Nat) : Nat → Grid → Option (Nat × Nat)
  | _, [] => none
  | i, row :: rest =>
    if row.length ≠ len0 then some (i, row.length)
    else find_bad_row len0 (i + 1) rest

/-- validate_state of the source; the second component collects the eprint
messages the source would emit. -/
def validate_state (s : Grid) : Nat × List String :=
  let len0 := (s.headD []).length
  match find_bad_row len0 0 s with
  | some il => (_invalid, [unequal_msg il.1 il.2 len0, unequal_msg2])
  | none =>
    let st := vscan s
    if st.invalid then (_invalid, st.msgs)
    else if st.finish == 0 then
      (_invalid, st.msgs ++ [no_finish_msg, no_finish_msg2])
    else if st.goat ≠ 1 then
      (_invalid, st.msgs ++ [goat_count_msg st.goat, goat_count_msg2])
    else if st.victory then (_victory, st.msgs)
    else if st.defeated then (_defeated, st.msgs)
    else (_unfinished, st.msgs)

/-- The non-interactive command loop of the source driver: skip whitespace,
reject a non-direction symbol with the invalid exit code, otherwise move and
stop at the first status other than unfinished. -/
def run_moves (fuel : Nat) (s : Grid) (code : Nat) :
    List Char → Except Err (Nat × Grid)
  | [] => .ok (code, s)
  | d :: rest =>
    if d == ' ' || d == '\t' || d == '\n' then run_moves fuel s code rest
    else if d == 'h' || d == 'j' || d == 'k' || d == 'l' then
      match move fuel s d with
      | .error e => .error e
      | .ok r =>
        if r.1 ≠ _unfinished then .ok (r.1, r.2)
        else run_moves fuel r.2 r.1 rest
    else .ok (_invalid, s)

/-- Characters that count toward the single-actor invariant: the live, the
victorious and the defeated ram. -/
def actor_char (c : Char) : Bool := c == 'G' || c == '@' || c == 'Y'

/-- Number of grid cells whose character satisfies p. -/
def grid_countP (p : Char → Bool) (s : Grid) : Nat := s.flatten.countP p

def actor_count (s : Grid) : Nat := grid_countP actor_char s

def finish_count (s : Grid) : Nat := grid_countP (fun c => c == 'F') s

/-- The grid is rectangular with the given height and width. -/
def Rect (height width : Nat) (s : Grid) : Prop :=
  s.map List.length = List.replicate height width

/-! ### Basic facts about the grid accessors -/

theorem at_posE_ok_iff {s : Grid} {row col : Int} {y : Char} :
    at_posE s row col = .ok y ↔
      0 ≤ row ∧ 0 ≤ col ∧
        ∃ r, s.get? row.toNat = some r ∧ r.get? col.toNat = some y := by
  constructor
  · intro h
    unfold at_posE at h
    by_cases hpos : 0 ≤ row ∧ 0 ≤ col
    · rw [if_pos hpos] at h
      cases hr : s.get? row.toNat with
      | none => rw [hr] at h; simp at h
      | some r =>
        rw [hr] at h
        simp only [] at h
        cases hc : r.get? col.toNat with
        | none => rw [hc] at h; simp at h
        | some c =>
          rw [hc] at h
          simp only [] at h
          injection h with h
          subst h
          exact ⟨hpos.1, hpos.2, r, rfl, hc⟩
    · rw [if_neg hpos] at h; simp at h
  · rintro ⟨h1, h2, r, hr, hc⟩
    unfold at_posE
    rw [if_pos ⟨h1, h2⟩, hr]
    simp only []
    rw [hc]

theorem set_at_posE_ok_spec {s s' : Grid} {row col : Int} {x : Char}
    (h : set_at_posE s row col x = .ok s') :
    0 ≤ row ∧ 0 ≤ col ∧
      ∃ r, s.get? row.toNat = some r ∧ col.toNat < r.length ∧
        s' = s.set row.toNat (r.set col.toNat x) := by
  unfold set_at_posE at h
  by_cases hpos : 0 ≤ row ∧ 0 ≤ col
  · rw [if_pos hpos] at h
    cases hr : s.get? row.toNat with
    | none => rw [hr] at h; simp at h
    | some r =>
      rw [hr] at h
      simp only [] at h
      by_cases hlen : col.toNat < r.length
      · rw [if_pos hlen] at h
        injection h with h
        exact ⟨hpos.1, hpos.2, r, rfl, hlen, h.symm⟩
      · rw [if_neg hlen] at h; simp at h
  · rw [if_neg hpos] at h; simp at h

theorem set_at_posE_ok_of_get {s : Grid} {row col : Int} {r : List Char}
    (h1 : 0 ≤ row) (h2 : 0 ≤ col) (hr : s.get? row.toNat = some r)
    (hlen : col.toNat < r.length) (x : Char) :
    set_at_posE s row col x = .ok (s.set row.toNat (r.set col.toNat x)) := by
  unfold set_at_posE
  rw [if_pos ⟨h1, h2⟩, hr]
  simp only []
  rw [if_pos hlen]

/-- A successful write leaves the row structure (lengths of all rows)
unchanged. -/
theorem set_at_posE_shape {s s' : Grid} {row col : Int} {x : Char}
    (h : set_at_posE s row col x = .ok s') :
    s'.map List.length = s.map List.length := by
  obtain ⟨_, _, r, hr, _, rfl⟩ := set_at_posE_ok_spec h
  rw [List.map_set]
  apply List.ext_get?
  intro n
  by_cases hn : n = row.toNat
  · subst hn
    rw [List.get?_set_eq_of_lt]
    · rw [List.get?_map, hr]
      simp [List.length_set]
    · rw [List.length_map]
      exact (List.get?_eq_some.mp hr).1
  · rw [List.get?_set_ne _ _ (fun hh => hn hh.symm)]

/-- Reading back the cell just written. -/
theorem at_set_same {s s' : Grid} {row col : Int} {x : Char}
    (h : set_at_posE s row col x = .ok s') : at_posE s' row col = .ok x := by
  obtain ⟨h1, h2, r, hr, hlen, rfl⟩ := set_at_posE_ok_spec h
  rw [at_posE_ok_iff]
  refine ⟨h1, h2, r.set col.toNat x, ?_, ?_⟩
  · rw [List.get?_set_eq_of_lt]
    exact (List.get?_eq_some.mp hr).1
  · exact List.get?_set_eq_of_lt _ hlen

/-- A write does not change any other cell. -/
theorem at_set_other {s s' : Grid} {row col row2 col2 : Int} {x : Char}
    (h : set_at_posE s row col x = .ok s')
    (hne : (row2, col2) ≠ (row, col)) :
    at_posE s' row2 col2 = at_posE s row2 col2 := by
  obtain ⟨h1, h2, r, hr, hlen, rfl⟩ := set_at_posE_ok_spec h
  by_cases hpos : 0 ≤ row2 ∧ 0 ≤ col2
  · by_cases hrow : row2.toNat = row.toNat
    · have hrow2 : row2 = row := by
        have e1 := Int.toNat_of_nonneg hpos.1
        have e2 := Int.toNat_of_nonneg h1
        omega
      subst hrow2
      have hcol : col2 ≠ col := fun hc => hne (by rw [hc])
      have hcoln : col2.toNat ≠ col.toNat := by
        have e1 := Int.toNat_of_nonneg hpos.2
        have e2 := Int.toNat_of_nonneg h2
        omega
      have hlt := (List.get?_eq_some.mp hr).1
      unfold at_posE
      rw [if_pos hpos, if_pos hpos, List.get?_set_eq_of_lt _ hlt, hr]
      simp only []
      rw [List.get?_set_ne _ _ (fun hh => hcoln hh.symm)]
    · unfold at_posE
      rw [if_pos hpos, if_pos hpos,
        List.get?_set_ne _ _ (fun hh => hrow hh.symm)]
  · unfold at_posE
    rw [if_neg hpos, if_neg hpos]

/-- The overwritten cell was readable before the write. -/
theorem at_of_set_ok {s s' : Grid} {row col : Int} {x : Char}
    (h : set_at_posE s row col x = .ok s') :
    ∃ y, at_posE s row col = .ok y := by
  obtain ⟨h1, h2, r, hr, hlen, _⟩ := set_at_posE_ok_spec h
  exact ⟨r.get ⟨col.toNat, hlen⟩, at_posE_ok_iff.mpr
    ⟨h1, h2, r, hr, List.get?_eq_some.mpr ⟨hlen, rfl⟩⟩⟩

/-- A write of a character other than t over a cell holding a character
other than t leaves the set of cells holding t unchanged. -/
theorem set_preserves_char {s s' : Grid} {row col : Int} {x y t : Char}
    (h : set_at_posE s row col x = .ok s')
    (hy : at_posE s row col = .ok y)
    (hx : x ≠ t) (hyt : y ≠ t) (row2 col2 : Int) :
    at_posE s' row2 col2 = .ok t ↔ at_posE s row2 col2 = .ok t := by
  by_cases hp : (row2, col2) = (row, col)
  · obtain ⟨hp1, hp2⟩ := Prod.mk.injEq .. ▸ hp
    subst hp1
    subst hp2
    rw [at_set_same h, hy]
    constructor
    · intro hh; injection hh with hh; exact absurd hh hx
    · intro hh; injection hh with hh; exact absurd hh hyt
  · rw [at_set_other h hp]

theorem countP_set_list (p : Char → Bool) :
    ∀ (l : List Char) (n : Nat) (a y : Char), l.get? n = some y →
      (l.set n a).countP p + (if p y then 1 else 0) =
        l.countP p + (if p a then 1 else 0) := by
  intro l
  induction l with
  | nil => intro n a y hy; simp at hy
  | cons c cs ih =>
    intro n a y hy
    cases n with
    | zero =>
      injection hy with hy
      subst hy
      simp only [List.set, List.countP_cons]
      omega
    | succ n =>
      simp only [List.get?] at hy
      simp only [List.set, List.countP_cons]
      have := ih n a y hy
      omega

theorem countP_set_row (p : Char → Bool) :
    ∀ (s : Grid) (n : Nat) (r v : List Char), s.get? n = some r →
      ((s.set n v).flatten).countP p + r.countP p =
        (s.flatten).countP p + v.countP p := by
  intro s
  induction s with
  | nil => intro n r v hr; simp at hr
  | cons w ws ih =>
    intro n r v hr
    cases n with
    | zero =>
      injection hr with hr
      subst hr
      simp only [List.set, List.flatten_cons, List.countP_append]
      omega
    | succ n =>
      simp only [List.get?] at hr
      simp only [List.set, List.flatten_cons, List.countP_append]
      have := ih n r v hr
      omega

/-- Effect of one write on the number of cells satisfying p. -/
theorem grid_countP_set {s s' : Grid} {row col : Int} {x y : Char}
    (p : Char → Bool)
    (h : set_at_posE s row col x = .ok s')
    (hy : at_posE s row col = .ok y) :
    grid_countP p s' + (if p y then 1 else 0) =
      grid_countP p s + (if p x then 1 else 0) := by
  obtain ⟨_, _, r, hr, hlen, rfl⟩ := set_at_posE_ok_spec h
  obtain ⟨_, _, r2, hr2, hc2⟩ := at_posE_ok_iff.mp hy
  rw [hr] at hr2
  injection hr2 with hr2
  subst hr2
  have hA := countP_set_list p r col.toNat x y hc2
  have hB := countP_set_row p s row.toNat r (r.set col.toNat x) hr
  unfold grid_countP
  omega

/-- A write of a non-t character over a non-t cell keeps the t-count. -/
theorem grid_countP_set_eq {s s' : Grid} {row col : Int} {x y : Char}
    (p : Char → Bool)
    (h : set_at_posE s row col x = .ok s')
    (hy : at_posE s row col = .ok y)
    (hx : p x = false) (hyp : p y = false) :
    grid_countP p s' = grid_countP p s := by
  have := grid_countP_set p h hy
  rw [hx, hyp] at this
  omega

theorem in_bounds_iff {height width : Nat} {row col : Int} :
    in_bounds height width row col = true ↔
      0 ≤ row ∧ 0 ≤ col ∧ row < (height : Int) ∧ col < (width : Int) := by
  unfold in_bounds
  simp [and_assoc]

theorem at_mem_flatten {s : Grid} {row col : Int} {y : Char}
    (h : at_posE s row col = .ok y) : y ∈ s.flatten := by
  obtain ⟨_, _, r, hr, hc⟩ := at_posE_ok_iff.mp h
  exact List.mem_flatten.mpr ⟨r, List.get?_mem hr, List.get?_mem hc⟩

theorem grid_countP_pos {s : Grid} {row col : Int} {y : Char}
    (p : Char → Bool) (h : at_posE s row col = .ok y) (hp : p y = true) :
    0 < grid_countP p s :=
  List.countP_pos.mpr ⟨y, at_mem_flatten h, hp⟩

/-! ### Rectangularity -/

theorem Rect.length {height width : Nat} {s : Grid} (h : Rect height width s) :
    s.length = height := by
  have := congrArg List.length h
  simpa using this

theorem Rect.row_len {height width : Nat} {s : Grid} {n : Nat} {r : List Char}
    (h : Rect height width s) (hr : s.get? n = some r) : r.length = width := by
  have hmap : (s.map List.length).get? n = some r.length := by
    rw [List.get?_map, hr]; rfl
  rw [h] at hmap
  have hn : n < height := by
    have := (List.get?_eq_some.mp hmap).1
    simpa using this
  rw [List.get?_eq_getElem?, List.getElem?_replicate, if_pos hn] at hmap
  injection hmap with hmap
  exact hmap.symm

theorem rect_of_shape_eq {height width : Nat} {s s' : Grid}
    (hsh : s'.map List.length = s.map List.length)
    (h : Rect height width s) : Rect height width s' := by
  unfold Rect at h ⊢
  rw [hsh, h]

theorem at_posE_ok_of_rect {height width : Nat} {s : Grid} {row col : Int}
    (hrect : Rect height width s) (hb : in_bounds height width row col = true) :
    ∃ y, at_posE s row col = .ok y := by
  obtain ⟨h1, h2, h3, h4⟩ := in_bounds_iff.mp hb
  have hrow : row.toNat < s.length := by
    rw [hrect.length]
    omega
  cases hr : s.get? row.toNat with
  | none =>
    rw [List.get?_eq_getElem?] at hr
    rw [List.getElem?_eq_none_iff] at hr
    omega
  | some r =>
    have hcol : col.toNat < r.length := by
      rw [hrect.row_len hr]
      omega
    exact ⟨r.get ⟨col.toNat, hcol⟩, at_posE_ok_iff.mpr
      ⟨h1, h2, r, hr, List.get?_eq_some.mpr ⟨hcol, rfl⟩⟩⟩

theorem set_at_posE_ok_of_rect {height width : Nat} {s : Grid} {row col : Int}
    (hrect : Rect height width s) (hb : in_bounds height width row col = true)
    (x : Char) : ∃ s', set_at_posE s row col x = .ok s' := by
  obtain ⟨h1, h2, h3, h4⟩ := in_bounds_iff.mp hb
  have hrow : row.toNat < s.length := by
    rw [hrect.length]
    omega
  cases hr : s.get? row.toNat with
  | none =>
    rw [List.get?_eq_getElem?] at hr
    rw [List.getElem?_eq_none_iff] at hr
    omega
  | some r =>
    have hcol : col.toNat < r.length := by
      rw [hrect.row_len hr]
      omega
    exact ⟨_, set_at_posE_ok_of_get h1 h2 hr hcol x⟩

theorem bounds_of_rect {height width : Nat} {s : Grid}
    (hrect : Rect height width s) (hh : 0 < height) : bounds s = (height, width) := by
  unfold bounds
  rw [hrect.length]
  cases s with
  | nil => exact absurd hrect.length (by simp; omega)
  | cons r rs =>
    have : r.length = width :=
      hrect.row_len (show List.get? (r :: rs) 0 = some r from rfl)
    simp [this]

/-! ### Facts about next_pos and find_pos -/

theorem next_pos_ne {row col r2 c2 : Int} {dir : Char}
    (h : next_pos row col dir = some (r2, c2)) : (r2, c2) ≠ (row, col) := by
  unfold next_pos at h
  intro he
  obtain ⟨he1, he2⟩ := Prod.mk.injEq .. ▸ he
  by_cases h1 : dir == 'h'
  · rw [if_pos h1] at h; injection h with h
    obtain ⟨hh1, hh2⟩ := Prod.mk.injEq .. ▸ h.symm
    omega
  · rw [if_neg h1] at h
    by_cases h2 : dir == 'l'
    · rw [if_pos h2] at h; injection h with h
      obtain ⟨hh1, hh2⟩ := Prod.mk.injEq .. ▸ h.symm
      omega
    · rw [if_neg h2] at h
      by_cases h3 : dir == 'k'
      · rw [if_pos h3] at h; injection h with h
        obtain ⟨hh1, hh2⟩ := Prod.mk.injEq .. ▸ h.symm
        omega
      · rw [if_neg h3] at h
        by_cases h4 : dir == 'j'
        · rw [if_pos h4] at h; injection h with h
          obtain ⟨hh1, hh2⟩ := Prod.mk.injEq .. ▸ h.symm
          omega
        · rw [if_neg h4] at h; exact absurd h (by simp)

theorem next_pos_two_ne {row col r1 c1 r2 c2 : Int} {dir : Char}
    (h1 : next_pos row col dir = some (r1, c1))
    (h2 : next_pos r1 c1 dir = some (r2, c2)) : (r2, c2) ≠ (row, col) := by
  unfold next_pos at h1 h2
  intro he
  obtain ⟨he1, he2⟩ := Prod.mk.injEq .. ▸ he
  by_cases k1 : dir == 'h'
  · rw [if_pos k1] at h1 h2
    injection h1 with h1; injection h2 with h2
    obtain ⟨a1, a2⟩ := Prod.mk.injEq .. ▸ h1.symm
    obtain ⟨b1, b2⟩ := Prod.mk.injEq .. ▸ h2.symm
    omega
  · rw [if_neg k1] at h1 h2
    by_cases k2 : dir == 'l'
    · rw [if_pos k2] at h1 h2
      injection h1 with h1; injection h2 with h2
      obtain ⟨a1, a2⟩ := Prod.mk.injEq .. ▸ h1.symm
      obtain ⟨b1, b2⟩ := Prod.mk.injEq .. ▸ h2.symm
      omega
    · rw [if_neg k2] at h1 h2
      by_cases k3 : dir == 'k'
      · rw [if_pos k3] at h1 h2
        injection h1 with h1; injection h2 with h2
        obtain ⟨a1, a2⟩ := Prod.mk.injEq .. ▸ h1.symm
        obtain ⟨b1, b2⟩ := Prod.mk.injEq .. ▸ h2.symm
        omega
      · rw [if_neg k3] at h1 h2
        by_cases k4 : dir == 'j'
        · rw [if_pos k4] at h1 h2
          injection h1 with h1; injection h2 with h2
          obtain ⟨a1, a2⟩ := Prod.mk.injEq .. ▸ h1.symm
          obtain ⟨b1, b2⟩ := Prod.mk.injEq .. ▸ h2.symm
          omega
        · rw [if_neg k4] at h1; exact absurd h1 (by simp)

theorem next_pos_isSome (row col : Int) {dir : Char}
    (h : dir = 'h' ∨ dir = 'j' ∨ dir = 'k' ∨ dir = 'l') :
    ∃ p, next_pos row col dir = some p := by
  rcases h with rfl | rfl | rfl | rfl <;> exact ⟨_, rfl⟩

theorem mem_find_in_row {x : Char} {i : Nat} :
    ∀ (l : List Char) (j : Nat) (q : Int × Int), q ∈ find_in_row x i j l →
      ∃ b : Nat, q = ((i : Int), (b : Int)) ∧ j ≤ b ∧ l.get? (b - j) = some x := by
  intro l
  induction l with
  | nil => intro j q hq; simp [find_in_row] at hq
  | cons c cs ih =>
    intro j q hq
    unfold find_in_row at hq
    by_cases hc : c == x
    · rw [if_pos hc] at hq
      rcases List.mem_cons.mp hq with he | hm
      · refine ⟨j, he, le_refl j, ?_⟩
        simp only [Nat.sub_self, List.get?]
        rw [(beq_iff_eq.mp hc)]
      · obtain ⟨b, hb1, hb2, hb3⟩ := ih (j + 1) q hm
        refine ⟨b, hb1, by omega, ?_⟩
        have hbj : b - j = (b - (j + 1)) + 1 := by omega
        rw [hbj]
        exact hb3
    · rw [if_neg hc] at hq
      obtain ⟨b, hb1, hb2, hb3⟩ := ih (j + 1) q hq
      refine ⟨b, hb1, by omega, ?_⟩
      have hbj : b - j = (b - (j + 1)) + 1 := by omega
      rw [hbj]
      exact hb3

theorem mem_find_pos_aux {x : Char} :
    ∀ (s : Grid) (i0 : Nat) (q : Int × Int), q ∈ find_pos_aux x i0 s →
      ∃ a b : Nat, q = ((a : Int), (b : Int)) ∧ i0 ≤ a ∧
        ∃ r, s.get? (a - i0) = some r ∧ r.get? b = some x := by
  intro s
  induction s with
  | nil => intro i0 q hq; simp [find_pos_aux] at hq
  | cons r rs ih =>
    intro i0 q hq
    unfold find_pos_aux at hq
    rcases List.mem_append.mp hq with hm | hm
    · obtain ⟨b, hb1, hb2, hb3⟩ := mem_find_in_row r 0 q hm
      exact ⟨i0, b, hb1, le_refl i0, r, by simp, by simpa using hb3⟩
    · obtain ⟨a, b, h1, h2, rr, h3, h4⟩ := ih (i0 + 1) q hm
      refine ⟨a, b, h1, by omega, rr, ?_, h4⟩
      have haj : a - i0 = (a - (i0 + 1)) + 1 := by omega
      rw [haj]
      exact h3

/-- Every position found by find_pos indeed reads back the character. -/
theorem at_of_mem_find_pos {s : Grid} {x : Char} {q : Int × Int}
    (hq : q ∈ find_pos s x) : at_posE s q.1 q.2 = .ok x := by
  obtain ⟨a, b, h1, _, r, h3, h4⟩ := mem_find_pos_aux s 0 q hq
  subst h1
  simp only [Nat.sub_zero] at h3
  exact at_posE_ok_iff.mpr ⟨by simp, by simp, r, by simpa using h3, by simpa using h4⟩

theorem in_bounds_of_mem_find_pos {height width : Nat} {s : Grid} {x : Char}
    {q : Int × Int} (hrect : Rect height width s) (hq : q ∈ find_pos s x) :
    in_bounds height width q.1 q.2 = true := by
  obtain ⟨a, b, h1, _, r, h3, h4⟩ := mem_find_pos_aux s 0 q hq
  subst h1
  simp only [Nat.sub_zero] at h3
  have ha : a < s.length := (List.get?_eq_some.mp h3).1
  have hb : b < r.length := (List.get?_eq_some.mp h4).1
  rw [hrect.length] at ha
  rw [hrect.row_len h3] at hb
  rw [in_bounds_iff]
  constructor
  · simp
  refine ⟨by simp, ?_, ?_⟩ <;> simp <;> omega

/-! ### Effect of the sliding-weight loop -/

/-- The characters the sliding-weight loop can read at or write to a cell it
touches: the weight itself, what it may slide over, and what it leaves. -/
def slide_touched : List Char := [' ', '_', '.', 'x', '|', '-', '+', 'o', 'w']

theorem slide_cond_mem {nc : Char}
    (g : (nc == ' ' || nc == '_' || nc == '.' || nc == 'x' || nc == '|' ||
      nc == '-' || nc == '+') = true) : nc ∈ slide_touched := by
  simp only [Bool.or_eq_true, beq_iff_eq] at g
  unfold slide_touched
  rcases g with ((((((h | h) | h) | h) | h) | h) | h) <;> subst h <;> simp

theorem slide_loop_master {dir : Char} {height width : Nat} :
    ∀ (fuel : Nat) (s : Grid) (row col : Int) (s2 : Grid),
      at_posE s row col = .ok 'w' →
      slide_loop fuel s dir row col height width = .ok s2 →
      s2.map List.length = s.map List.length ∧
      (∀ t : Char, t ∉ slide_touched → ∀ r2 c2 : Int,
        (at_posE s2 r2 c2 = .ok t ↔ at_posE s r2 c2 = .ok t)) ∧
      (∀ p : Char → Bool, (∀ c ∈ slide_touched, p c = false) →
        grid_countP p s2 = grid_countP p s) := by
  intro fuel
  induction fuel with
  | zero =>
    intro s row col s2 hat h
    unfold slide_loop at h
    simp at h
  | succ fuel ih =>
    intro s row col s2 hat h
    unfold slide_loop at h
    cases hnp : next_pos row col dir with
    | none => rw [hnp] at h; simp at h
    | some np =>
      obtain ⟨nrow, ncol⟩ := np
      rw [hnp] at h
      simp only [] at h
      by_cases hb : in_bounds height width nrow ncol = true
      case neg =>
        rw [if_neg hb] at h
        injection h with h
        subst h
        exact ⟨rfl, fun t ht r2 c2 => Iff.rfl, fun p hp => rfl⟩
      case pos =>
        rw [if_pos hb] at h
        cases hac : at_posE s nrow ncol with
        | error e => rw [hac] at h; simp at h
        | ok nc =>
          rw [hac] at h
          simp only [] at h
          have hne : (nrow, ncol) ≠ (row, col) := next_pos_ne hnp
          by_cases g1 : (nc == ' ' || nc == '_' || nc == '.' || nc == 'x' ||
              nc == '|' || nc == '-' || nc == '+') = true
          · rw [if_pos g1] at h
            have hncmem : nc ∈ slide_touched := slide_cond_mem g1
            cases hs1 : set_at_posE s row col ' ' with
            | error e => rw [hs1] at h; simp at h
            | ok s1 =>
              rw [hs1] at h
              simp only [] at h
              cases hs2 : set_at_posE s1 nrow ncol 'w' with
              | error e => rw [hs2] at h; simp at h
              | ok s1b =>
                rw [hs2] at h
                simp only [] at h
                have hat1 : at_posE s1 nrow ncol = .ok nc := by
                  rw [at_set_other hs1 hne]
                  exact hac
                have hat2 : at_posE s1b nrow ncol = .ok 'w' := at_set_same hs2
                obtain ⟨ihsh, ihpos, ihcnt⟩ := ih s1b nrow ncol s2 hat2 h
                refine ⟨?_, ?_, ?_⟩
                · rw [ihsh, set_at_posE_shape hs2, set_at_posE_shape hs1]
                · intro t ht r2 c2
                  rw [ihpos t ht r2 c2]
                  rw [set_preserves_char hs2 hat1
                    (fun he => ht (by rw [← he]; simp [slide_touched]))
                    (fun he => ht (by rw [← he]; exact hncmem)) r2 c2]
                  exact set_preserves_char hs1 hat
                    (fun he => ht (by rw [← he]; simp [slide_touched]))
                    (fun he => ht (by rw [← he]; simp [slide_touched])) r2 c2
                · intro p hp
                  rw [ihcnt p hp]
                  rw [grid_countP_set_eq p hs2 hat1
                    (hp 'w' (by simp [slide_touched])) (hp nc hncmem)]
                  exact grid_countP_set_eq p hs1 hat
                    (hp ' ' (by simp [slide_touched]))
                    (hp 'w' (by simp [slide_touched]))
          · rw [if_neg g1] at h
            by_cases g2 : (nc == 'o') = true
            · rw [if_pos g2] at h
              have hnco : nc = 'o' := beq_iff_eq.mp g2
              subst hnco
              cases hs1 : set_at_posE s row col ' ' with
              | error e => rw [hs1] at h; simp at h
              | ok s1 =>
                rw [hs1] at h
                simp only [] at h
                cases hs2 : set_at_posE s1 nrow ncol '_' with
                | error e => rw [hs2] at h; simp at h
                | ok s1b =>
                  rw [hs2] at h
                  simp only [] at h
                  injection h with h
                  subst h
                  have hat1 : at_posE s1 nrow ncol = .ok 'o' := by
                    rw [at_set_other hs1 hne]
                    exact hac
                  refine ⟨?_, ?_, ?_⟩
                  · rw [set_at_posE_shape hs2, set_at_posE_shape hs1]
                  · intro t ht r2 c2
                    rw [set_preserves_char hs2 hat1
                      (fun he => ht (by rw [← he]; simp [slide_touched]))
                      (fun he => ht (by rw [← he]; simp [slide_touched])) r2 c2]
                    exact set_preserves_char hs1 hat
                      (fun he => ht (by rw [← he]; simp [slide_touched]))
                      (fun he => ht (by rw [← he]; simp [slide_touched])) r2 c2
                  · intro p hp
                    rw [grid_countP_set_eq p hs2 hat1
                      (hp '_' (by simp [slide_touched]))
                      (hp 'o' (by simp [slide_touched]))]
                    exact grid_countP_set_eq p hs1 hat
                      (hp ' ' (by simp [slide_touched]))
                      (hp 'w' (by simp [slide_touched]))
            · rw [if_neg g2] at h
              injection h with h
              subst h
              exact ⟨rfl, fun t ht r2 c2 => Iff.rfl, fun p hp => rfl⟩

/-! ### Effect of the movement loop -/

theorem move_loop_master {dir : Char} {height width : Nat} :
    ∀ (fuel : Nat) (s : Grid) (row col : Int) (st : Nat) (s2 : Grid),
      at_posE s row col = .ok 'G' →
      move_loop fuel s dir row col height width = .ok (st, s2) →
      s2.map List.length = s.map List.length ∧
      (∀ r2 c2 : Int, (at_posE s2 r2 c2 = .ok 'F' ↔ at_posE s r2 c2 = .ok 'F')) ∧
      finish_count s2 = finish_count s ∧
      actor_count s2 = actor_count s := by
  intro fuel
  induction fuel with
  | zero =>
    intro s row col st s2 hat h
    unfold move_loop at h
    simp at h
  | succ fuel ih =>
    intro s row col st s2 hat h
    unfold move_loop at h
    cases hnp : next_pos row col dir with
    | none => rw [hnp] at h; simp at h
    | some np =>
      obtain ⟨nrow, ncol⟩ := np
      rw [hnp] at h
      simp only [] at h
      by_cases hb : in_bounds height width nrow ncol = true
      case neg =>
        rw [if_neg hb] at h
        injection h with h
        injection h with hst hgrid
        subst hgrid
        exact ⟨rfl, fun r2 c2 => Iff.rfl, rfl, rfl⟩
      case pos =>
        rw [if_pos hb] at h
        cases hac : at_posE s nrow ncol with
        | error e => rw [hac] at h; simp at h
        | ok c =>
          rw [hac] at h
          simp only [] at h
          have hne_np_rc : (nrow, ncol) ≠ (row, col) := next_pos_ne hnp
          by_cases g1 : (c == ' ' || c == '_' || c == '.') = true
          · rw [if_pos g1] at h
            cases hs1 : set_at_posE s nrow ncol 'G' with
            | error e => rw [hs1] at h; simp at h
            | ok s1 =>
              rw [hs1] at h
              simp only [] at h
              cases hs2 : set_at_posE s1 row col '.' with
              | error e => rw [hs2] at h; simp at h
              | ok s1b =>
                rw [hs2] at h
                simp only [] at h
                have hat1 : at_posE s1 row col = .ok 'G' := by
                  rw [at_set_other hs1 hne_np_rc.symm]
                  exact hat
                have hat2 : at_posE s1b nrow ncol = .ok 'G' := by
                  rw [at_set_other hs2 hne_np_rc]
                  exact at_set_same hs1
                obtain ⟨ihsh, ihpos, ihfin, ihact⟩ := ih s1b nrow ncol st s2 hat2 h
                have hcval : c = ' ' ∨ c = '_' ∨ c = '.' := by
                  simp only [Bool.or_eq_true, beq_iff_eq] at g1
                  tauto
                have hcF : c ≠ 'F' := by rcases hcval with rfl | rfl | rfl <;> decide
                have hcFb : (fun ch => ch == 'F') c = false := by
                  rcases hcval with rfl | rfl | rfl <;> decide
                have hcA : actor_char c = false := by
                  rcases hcval with rfl | rfl | rfl <;> decide
                refine ⟨?_, ?_, ?_, ?_⟩
                · rw [ihsh, set_at_posE_shape hs2, set_at_posE_shape hs1]
                · intro r2 c2
                  rw [ihpos r2 c2]
                  rw [set_preserves_char hs2 hat1 (by decide) (by decide) r2 c2]
                  exact set_preserves_char hs1 hac (by decide) hcF r2 c2
                · unfold finish_count at ihfin ⊢
                  rw [ihfin]
                  rw [grid_countP_set_eq _ hs2 hat1 (by decide) (by decide)]
                  exact grid_countP_set_eq _ hs1 hac (by decide) hcFb
                · unfold actor_count at ihact ⊢
                  have e1 := grid_countP_set actor_char hs1 hac
                  have e2 := grid_countP_set actor_char hs2 hat1
                  rw [hcA] at e1
                  rw [(by decide : actor_char 'G' = true)] at e1 e2
                  rw [(by decide : actor_char ('.') = false)] at e2
                  simp only [if_true, if_false] at e1 e2
                  omega
          · rw [if_neg g1] at h
            by_cases g2 : (c == 'M') = true
            · rw [if_pos g2] at h
              have hc : c = 'M' := beq_iff_eq.mp g2
              subst hc
              cases hs1 : set_at_posE s nrow ncol 'm' with
              | error e => rw [hs1] at h; simp at h
              | ok s1 =>
                rw [hs1] at h
                simp only [] at h
                injection h with h
                injection h with hst hgrid
                subst hgrid
                refine ⟨set_at_posE_shape hs1, ?_, ?_, ?_⟩
                · intro r2 c2
                  exact set_preserves_char hs1 hac (by decide) (by decide) r2 c2
                · unfold finish_count
                  exact grid_countP_set_eq _ hs1 hac (by decide) (by decide)
                · unfold actor_count
                  exact grid_countP_set_eq _ hs1 hac (by decide) (by decide)
            · rw [if_neg g2] at h
              by_cases g3 : (c == 'm') = true
              · rw [if_pos g3] at h
                have hc : c = 'm' := beq_iff_eq.mp g3
                subst hc
                cases hs1 : set_at_posE s nrow ncol '_' with
                | error e => rw [hs1] at h; simp at h
                | ok s1 =>
                  rw [hs1] at h
                  simp only [] at h
                  injection h with h
                  injection h with hst hgrid
                  subst hgrid
                  refine ⟨set_at_posE_shape hs1, ?_, ?_, ?_⟩
                  · intro r2 c2
                    exact set_preserves_char hs1 hac (by decide) (by decide) r2 c2
                  · unfold finish_count
                    exact grid_countP_set_eq _ hs1 hac (by decide) (by decide)
                  · unfold actor_count
                    exact grid_countP_set_eq _ hs1 hac (by decide) (by decide)
              · rw [if_neg g3] at h
                by_cases g4 : (c == 'v' || c == '^' || c == '<' || c == '>') = true
                · rw [if_pos g4] at h
                  have hcval : c = 'v' ∨ c = '^' ∨ c = '<' ∨ c = '>' := by
                    simp only [Bool.or_eq_true, beq_iff_eq] at g4
                    tauto
                  cases hs1 : set_at_posE s nrow ncol '_' with
                  | error e => rw [hs1] at h; simp at h
                  | ok s1 =>
                    rw [hs1] at h
                    simp only [] at h
                    injection h with h
                    injection h with hst hgrid
                    subst hgrid
                    have hcF : c ≠ 'F' := by
                      rcases hcval with rfl | rfl | rfl | rfl <;> decide
                    have hcFb : (fun ch => ch == 'F') c = false := by
                      rcases hcval with rfl | rfl | rfl | rfl <;> decide
                    have hcA : actor_char c = false := by
                      rcases hcval with rfl | rfl | rfl | rfl <;> decide
                    refine ⟨set_at_posE_shape hs1, ?_, ?_, ?_⟩
                    · intro r2 c2
                      exact set_preserves_char hs1 hac (by decide) hcF r2 c2
                    · unfold finish_count
                      exact grid_countP_set_eq _ hs1 hac (by decide) hcFb
                    · unfold actor_count
                      exact grid_countP_set_eq _ hs1 hac (by decide) hcA
                · rw [if_neg g4] at h
                  by_cases g5 : (c == 'F') = true
                  · rw [if_pos g5] at h
                    cases hs1 : set_at_posE s row col '@' with
                    | error e => rw [hs1] at h; simp at h
                    | ok s1 =>
                      rw [hs1] at h
                      simp only [] at h
                      injection h with h
                      injection h with hst hgrid
                      subst hgrid
                      refine ⟨set_at_posE_shape hs1, ?_, ?_, ?_⟩
                      · intro r2 c2
                        exact set_preserves_char hs1 hat (by decide) (by decide) r2 c2
                      · unfold finish_count
                        exact grid_countP_set_eq _ hs1 hat (by decide) (by decide)
                      · unfold actor_count
                        have e1 := grid_countP_set actor_char hs1 hat
                        rw [(by decide : actor_char 'G' = true),
                          (by decide : actor_char ('@') = true)] at e1
                        simp only [if_true] at e1
                        omega
                  · rw [if_neg g5] at h
                    by_cases g6 : (c == 'x' || c == '|' || c == '-') = true
                    · rw [if_pos g6] at h
                      cases hs1 : set_at_posE s row col 'Y' with
                      | error e => rw [hs1] at h; simp at h
                      | ok s1 =>
                        rw [hs1] at h
                        simp only [] at h
                        injection h with h
                        injection h with hst hgrid
                        subst hgrid
                        refine ⟨set_at_posE_shape hs1, ?_, ?_, ?_⟩
                        · intro r2 c2
                          exact set_preserves_char hs1 hat (by decide) (by decide) r2 c2
                        · unfold finish_count
                          exact grid_countP_set_eq _ hs1 hat (by decide) (by decide)
                        · unfold actor_count
                          have e1 := grid_countP_set actor_char hs1 hat
                          rw [(by decide : actor_char 'G' = true),
                            (by decide : actor_char 'Y' = true)] at e1
                          simp only [if_true] at e1
                          omega
                    · rw [if_neg g6] at h
                      by_cases g7 : (c == 'o') = true
                      · rw [if_pos g7] at h
                        have hc : c = 'o' := beq_iff_eq.mp g7
                        subst hc
                        cases hs1 : set_at_posE s nrow ncol 'G' with
                        | error e => rw [hs1] at h; simp at h
                        | ok s1 =>
                          rw [hs1] at h
                          simp only [] at h
                          cases hs2 : set_at_posE s1 row col '.' with
                          | error e => rw [hs2] at h; simp at h
                          | ok s1b =>
                            rw [hs2] at h
                            simp only [] at h
                            injection h with h
                            injection h with hst hgrid
                            subst hgrid
                            have hat1 : at_posE s1 row col = .ok 'G' := by
                              rw [at_set_other hs1 hne_np_rc.symm]
                              exact hat
                            refine ⟨?_, ?_, ?_, ?_⟩
                            · rw [set_at_posE_shape hs2, set_at_posE_shape hs1]
                            · intro r2 c2
                              rw [set_preserves_char hs2 hat1 (by decide) (by decide) r2 c2]
                              exact set_preserves_char hs1 hac (by decide) (by decide) r2 c2
                            · unfold finish_count
                              rw [grid_countP_set_eq _ hs2 hat1 (by decide) (by decide)]
                              exact grid_countP_set_eq _ hs1 hac (by decide) (by decide)
                            · unfold actor_count
                              have e1 := grid_countP_set actor_char hs1 hac
                              have e2 := grid_countP_set actor_char hs2 hat1
                              rw [(by decide : actor_char 'o' = false),
                                (by decide : actor_char 'G' = true)] at e1
                              rw [(by decide : actor_char 'G' = true),
                                (by decide : actor_char ('.') = false)] at e2
                              simp only [if_true, if_false] at e1 e2
                              omega
                      · rw [if_neg g7] at h
                        by_cases g8 : (c == 'W') = true
                        · rw [if_pos g8] at h
                          have hc : c = 'W' := beq_iff_eq.mp g8
                          subst hc
                          cases hnp2 : next_pos nrow ncol dir with
                          | none => rw [hnp2] at h; simp at h
                          | some op =>
                            obtain ⟨orow, ocol⟩ := op
                            rw [hnp2] at h
                            simp only [] at h
                            by_cases hb2 : in_bounds height width orow ocol = true
                            case neg =>
                              rw [if_neg hb2] at h
                              injection h with h
                              injection h with hst hgrid
                              subst hgrid
                              exact ⟨rfl, fun r2 c2 => Iff.rfl, rfl, rfl⟩
                            case pos =>
                              rw [if_pos hb2] at h
                              cases hoc : at_posE s orow ocol with
                              | error e => rw [hoc] at h; simp at h
                              | ok nc =>
                                rw [hoc] at h
                                simp only [] at h
                                have hne_op_np : (orow, ocol) ≠ (nrow, ncol) :=
                                  next_pos_ne hnp2
                                have hne_op_rc : (orow, ocol) ≠ (row, col) :=
                                  next_pos_two_ne hnp hnp2
                                by_cases w1 : (nc == ' ' || nc == '_' || nc == '.' ||
                                    nc == 'x' || nc == '|' || nc == '-' || nc == '+') = true
                                · rw [if_pos w1] at h
                                  have hmem : nc ∈ slide_touched := slide_cond_mem w1
                                  have hncF : nc ≠ 'F' := fun he =>
                                    (by decide : ('F' : Char) ∉ slide_touched) (he ▸ hmem)
                                  have hncFb : (fun ch => ch == 'F') nc = false :=
                                    (by decide : ∀ ch ∈ slide_touched,
                                      (fun ch2 => ch2 == 'F') ch = false) nc hmem
                                  have hncA : actor_char nc = false :=
                                    (by decide : ∀ ch ∈ slide_touched,
                                      actor_char ch = false) nc hmem
                                  cases hs1 : set_at_posE s orow ocol 'W' with
                                  | error e => rw [hs1] at h; simp at h
                                  | ok s1 =>
                                    rw [hs1] at h
                                    simp only [] at h
                                    cases hs2 : set_at_posE s1 nrow ncol 'G' with
                                    | error e => rw [hs2] at h; simp at h
                                    | ok s1b =>
                                      rw [hs2] at h
                                      simp only [] at h
                                      cases hs3 : set_at_posE s1b row col '.' with
                                      | error e => rw [hs3] at h; simp at h
                                      | ok s1c =>
                                        rw [hs3] at h
                                        simp only [] at h
                                        injection h with h
                                        injection h with hst hgrid
                                        subst hgrid
                                        have hat1 : at_posE s1 nrow ncol = .ok 'W' := by
                                          rw [at_set_other hs1 hne_op_np.symm]
                                          exact hac
                                        have hat2 : at_posE s1b row col = .ok 'G' := by
                                          rw [at_set_other hs2 hne_np_rc.symm,
                                            at_set_other hs1 hne_op_rc.symm]
                                          exact hat
                                        refine ⟨?_, ?_, ?_, ?_⟩
                                        · rw [set_at_posE_shape hs3,
                                            set_at_posE_shape hs2, set_at_posE_shape hs1]
                                        · intro r2 c2
                                          rw [set_preserves_char hs3 hat2
                                            (by decide) (by decide) r2 c2]
                                          rw [set_preserves_char hs2 hat1
                                            (by decide) (by decide) r2 c2]
                                          exact set_preserves_char hs1 hoc
                                            (by decide) hncF r2 c2
                                        · unfold finish_count
                                          rw [grid_countP_set_eq _ hs3 hat2
                                            (by decide) (by decide)]
                                          rw [grid_countP_set_eq _ hs2 hat1
                                            (by decide) (by decide)]
                                          exact grid_countP_set_eq _ hs1 hoc
                                            (by decide) hncFb
                                        · unfold actor_count
                                          have e1 := grid_countP_set actor_char hs1 hoc
                                          have e2 := grid_countP_set actor_char hs2 hat1
                                          have e3 := grid_countP_set actor_char hs3 hat2
                                          rw [hncA, (by decide : actor_char 'W' = false)] at e1
                                          rw [(by decide : actor_char 'W' = false),
                                            (by decide : actor_char 'G' = true)] at e2
                                          rw [(by decide : actor_char 'G' = true),
                                            (by decide : actor_char ('.') = false)] at e3
                                          simp only [if_true, if_false] at e1 e2 e3
                                          omega
                                · rw [if_neg w1] at h
                                  by_cases w2 : (nc == 'o') = true
                                  · rw [if_pos w2] at h
                                    have hnc : nc = 'o' := beq_iff_eq.mp w2
                                    subst hnc
                                    cases hs1 : set_at_posE s orow ocol '_' with
                                    | error e => rw [hs1] at h; simp at h
                                    | ok s1 =>
                                      rw [hs1] at h
                                      simp only [] at h
                                      cases hs2 : set_at_posE s1 nrow ncol 'G' with
                                      | error e => rw [hs2] at h; simp at h
                                      | ok s1b =>
                                        rw [hs2] at h
                                        simp only [] at h
                                        cases hs3 : set_at_posE s1b row col '.' with
                                        | error e => rw [hs3] at h; simp at h
                                        | ok s1c =>
                                          rw [hs3] at h
                                          simp only [] at h
                                          injection h with h
                                          injection h with hst hgrid
                                          subst hgrid
                                          have hat1 : at_posE s1 nrow ncol = .ok 'W' := by
                                            rw [at_set_other hs1 hne_op_np.symm]
                                            exact hac
                                          have hat2 : at_posE s1b row col = .ok 'G' := by
                                            rw [at_set_other hs2 hne_np_rc.symm,
                                              at_set_other hs1 hne_op_rc.symm]
                                            exact hat
                                          refine ⟨?_, ?_, ?_, ?_⟩
                                          · rw [set_at_posE_shape hs3,
                                              set_at_posE_shape hs2, set_at_posE_shape hs1]
                                          · intro r2 c2
                                            rw [set_preserves_char hs3 hat2
                                              (by decide) (by decide) r2 c2]
                                            rw [set_preserves_char hs2 hat1
                                              (by decide) (by decide) r2 c2]
                                            exact set_preserves_char hs1 hoc
                                              (by decide) (by decide) r2 c2
                                          · unfold finish_count
                                            rw [grid_countP_set_eq _ hs3 hat2
                                              (by decide) (by decide)]
                                            rw [grid_countP_set_eq _ hs2 hat1
                                              (by decide) (by decide)]
                                            exact grid_countP_set_eq _ hs1 hoc
                                              (by decide) (by decide)
                                          · unfold actor_count
                                            have e1 := grid_countP_set actor_char hs1 hoc
                                            have e2 := grid_countP_set actor_char hs2 hat1
                                            have e3 := grid_countP_set actor_char hs3 hat2
                                            rw [(by decide : actor_char 'o' = false),
                                              (by decide : actor_char ('_') = false)] at e1
                                            rw [(by decide : actor_char 'W' = false),
                                              (by decide : actor_char 'G' = true)] at e2
                                            rw [(by decide : actor_char 'G' = true),
                                              (by decide : actor_char ('.') = false)] at e3
                                            simp only [if_true, if_false] at e1 e2 e3
                                            omega
                                  · rw [if_neg w2] at h
                                    injection h with h
                                    injection h with hst hgrid
                                    subst hgrid
                                    exact ⟨rfl, fun r2 c2 => Iff.rfl, rfl, rfl⟩
                        · rw [if_neg g8] at h
                          by_cases g9 : (c == 'w') = true
                          · rw [if_pos g9] at h
                            have hc : c = 'w' := beq_iff_eq.mp g9
                            subst hc
                            cases hsl : slide_loop fuel s dir nrow ncol height width with
                            | error e => rw [hsl] at h; simp at h
                            | ok s1 =>
                              rw [hsl] at h
                              simp only [] at h
                              injection h with h
                              injection h with hst hgrid
                              subst hgrid
                              obtain ⟨msh, mpos, mcnt⟩ :=
                                slide_loop_master fuel s nrow ncol s1 hac hsl
                              refine ⟨msh, ?_, ?_, ?_⟩
                              · exact mpos 'F' (by decide)
                              · unfold finish_count
                                exact mcnt _ (by decide)
                              · unfold actor_count
                                exact mcnt _ (by decide)
                          · rw [if_neg g9] at h
                            injection h with h
                            injection h with hst hgrid
                            subst hgrid
                            exact ⟨rfl, fun r2 c2 => Iff.rfl, rfl, rfl⟩

/-! ### Effect of one beam trace -/

theorem trace_loop_master {dir : Char} {height width : Nat} :
    ∀ (fuel : Nat) (s : Grid) (row col : Int) (s2 : Grid),
      trace_loop fuel s dir row col height width = .ok s2 →
      s2.map List.length = s.map List.length ∧
      (∀ r2 c2 : Int, (at_posE s2 r2 c2 = .ok 'F' ↔ at_posE s r2 c2 = .ok 'F')) ∧
      finish_count s2 = finish_count s ∧
      (grid_countP (fun ch => ch == '@') s = 0 →
        grid_countP (fun ch => ch == '@') s2 = 0 ∧
          actor_count s2 = actor_count s) := by
  intro fuel
  induction fuel with
  | zero =>
    intro s row col s2 h
    unfold trace_loop at h
    simp at h
  | succ fuel ih =>
    intro s row col s2 h
    unfold trace_loop at h
    by_cases hb : in_bounds height width row col = true
    case neg =>
      rw [if_neg hb] at h
      injection h with h
      subst h
      exact ⟨rfl, fun r2 c2 => Iff.rfl, rfl, fun hno => ⟨hno, rfl⟩⟩
    case pos =>
      rw [if_pos hb] at h
      cases hac : at_posE s row col with
      | error e => rw [hac] at h; simp at h
      | ok c =>
        rw [hac] at h
        simp only [] at h
        by_cases b1 : (c == '-' && (dir == 'j' || dir == 'k')) = true
        · rw [if_pos b1] at h
          have hc : c = '-' := beq_iff_eq.mp ((Bool.and_eq_true _ _).mp b1).1
          subst hc
          cases hs1 : set_at_posE s row col '+' with
          | error e => rw [hs1] at h; simp at h
          | ok s1 =>
            rw [hs1] at h
            simp only [] at h
            cases hnp : next_pos row col dir with
            | none => rw [hnp] at h; simp at h
            | some np =>
              obtain ⟨r2, c2⟩ := np
              rw [hnp] at h
              simp only [] at h
              obtain ⟨ihsh, ihpos, ihfin, ihat⟩ := ih s1 r2 c2 s2 h
              refine ⟨?_, ?_, ?_, ?_⟩
              · rw [ihsh, set_at_posE_shape hs1]
              · intro a b
                rw [ihpos a b]
                exact set_preserves_char hs1 hac (by decide) (by decide) a b
              · unfold finish_count at ihfin ⊢
                rw [ihfin]
                exact grid_countP_set_eq _ hs1 hac (by decide) (by decide)
              · intro hno
                have hno1 : grid_countP (fun ch => ch == '@') s1 = 0 := by
                  rw [grid_countP_set_eq _ hs1 hac (by decide) (by decide)]
                  exact hno
                obtain ⟨ha1, ha2⟩ := ihat hno1
                refine ⟨ha1, ?_⟩
                unfold actor_count at ha2 ⊢
                rw [ha2]
                exact grid_countP_set_eq _ hs1 hac (by decide) (by decide)
        · rw [if_neg b1] at h
          by_cases b2 : (c == '|' && (dir == 'h' || dir == 'l')) = true
          · rw [if_pos b2] at h
            have hc : c = '|' := beq_iff_eq.mp ((Bool.and_eq_true _ _).mp b2).1
            subst hc
            cases hs1 : set_at_posE s row col '+' with
            | error e => rw [hs1] at h; simp at h
            | ok s1 =>
              rw [hs1] at h
              simp only [] at h
              cases hnp : next_pos row col dir with
              | none => rw [hnp] at h; simp at h
              | some np =>
                obtain ⟨r2, c2⟩ := np
                rw [hnp] at h
                simp only [] at h
                obtain ⟨ihsh, ihpos, ihfin, ihat⟩ := ih s1 r2 c2 s2 h
                refine ⟨?_, ?_, ?_, ?_⟩
                · rw [ihsh, set_at_posE_shape hs1]
                · intro a b
                  rw [ihpos a b]
                  exact set_preserves_char hs1 hac (by decide) (by decide) a b
                · unfold finish_count at ihfin ⊢
                  rw [ihfin]
                  exact grid_countP_set_eq _ hs1 hac (by decide) (by decide)
                · intro hno
                  have hno1 : grid_countP (fun ch => ch == '@') s1 = 0 := by
                    rw [grid_countP_set_eq _ hs1 hac (by decide) (by decide)]
                    exact hno
                  obtain ⟨ha1, ha2⟩ := ihat hno1
                  refine ⟨ha1, ?_⟩
                  unfold actor_count at ha2 ⊢
                  rw [ha2]
                  exact grid_countP_set_eq _ hs1 hac (by decide) (by decide)
          · rw [if_neg b2] at h
            by_cases b3 : (c == 'G') = true
            · rw [if_pos b3] at h
              have hc : c = 'G' := beq_iff_eq.mp b3
              subst hc
              cases hs1 : set_at_posE s row col 'Y' with
              | error e => rw [hs1] at h; simp at h
              | ok s1 =>
                rw [hs1] at h
                simp only [] at h
                injection h with h
                subst h
                refine ⟨set_at_posE_shape hs1, ?_, ?_, ?_⟩
                · intro a b
                  exact set_preserves_char hs1 hac (by decide) (by decide) a b
                · unfold finish_count
                  exact grid_countP_set_eq _ hs1 hac (by decide) (by decide)
                · intro hno
                  refine ⟨?_, ?_⟩
                  · rw [grid_countP_set_eq _ hs1 hac (by decide) (by decide)]
                    exact hno
                  · unfold actor_count
                    have e1 := grid_countP_set actor_char hs1 hac
                    rw [(by decide : actor_char 'G' = true),
                      (by decide : actor_char 'Y' = true)] at e1
                    simp only [if_true] at e1
                    omega
            · rw [if_neg b3] at h
              by_cases b4 : laser_blocking c = true
              · rw [if_pos b4] at h
                injection h with h
                subst h
                exact ⟨rfl, fun a b => Iff.rfl, rfl, fun hno => ⟨hno, rfl⟩⟩
              · rw [if_neg b4] at h
                have hblock : laser_blocking c = false := by
                  rwa [Bool.not_eq_true] at b4
                simp only [laser_blocking, Bool.or_eq_false_iff] at hblock
                obtain ⟨⟨⟨⟨⟨⟨⟨⟨⟨hF, hm⟩, hM⟩, hw⟩, hW⟩, hY⟩, hlt⟩, hgt⟩, hup⟩, hdn⟩ :=
                  hblock
                have hcF : c ≠ 'F' := ne_of_beq_false hF
                have hcG : (c == 'G') = false := by rwa [Bool.not_eq_true] at b3
                by_cases hd1 : (dir == 'h' || dir == 'l') = true
                · rw [if_pos hd1] at h
                  cases hs1 : set_at_posE s row col '-' with
                  | error e => rw [hs1] at h; simp at h
                  | ok s1 =>
                    rw [hs1] at h
                    simp only [] at h
                    cases hnp : next_pos row col dir with
                    | none => rw [hnp] at h; simp at h
                    | some np =>
                      obtain ⟨r2, c2⟩ := np
                      rw [hnp] at h
                      simp only [] at h
                      obtain ⟨ihsh, ihpos, ihfin, ihat⟩ := ih s1 r2 c2 s2 h
                      refine ⟨?_, ?_, ?_, ?_⟩
                      · rw [ihsh, set_at_posE_shape hs1]
                      · intro a b
                        rw [ihpos a b]
                        exact set_preserves_char hs1 hac (by decide) hcF a b
                      · unfold finish_count at ihfin ⊢
                        rw [ihfin]
                        exact grid_countP_set_eq _ hs1 hac (by decide) hF
                      · intro hno
                        have hcAt : c ≠ '@' := by
                          intro he
                          subst he
                          have := grid_countP_pos (fun ch => ch == '@') hac (by decide)
                          omega
                        have hcAtb : (c == '@') = false :=
                          beq_eq_false_iff_ne.mpr hcAt
                        have hno1 : grid_countP (fun ch => ch == '@') s1 = 0 := by
                          rw [grid_countP_set_eq _ hs1 hac (by decide) hcAtb]
                          exact hno
                        obtain ⟨ha1, ha2⟩ := ihat hno1
                        refine ⟨ha1, ?_⟩
                        unfold actor_count at ha2 ⊢
                        rw [ha2]
                        refine grid_countP_set_eq _ hs1 hac (by decide) ?_
                        unfold actor_char
                        rw [hcG, hcAtb, hY]
                        rfl
                · rw [if_neg hd1] at h
                  by_cases hd2 : (dir == 'j' || dir == 'k') = true
                  · rw [if_pos hd2] at h
                    cases hs1 : set_at_posE s row col '|' with
                    | error e => rw [hs1] at h; simp at h
                    | ok s1 =>
                      rw [hs1] at h
                      simp only [] at h
                      cases hnp : next_pos row col dir with
                      | none => rw [hnp] at h; simp at h
                      | some np =>
                        obtain ⟨r2, c2⟩ := np
                        rw [hnp] at h
                        simp only [] at h
                        obtain ⟨ihsh, ihpos, ihfin, ihat⟩ := ih s1 r2 c2 s2 h
                        refine ⟨?_, ?_, ?_, ?_⟩
                        · rw [ihsh, set_at_posE_shape hs1]
                        · intro a b
                          rw [ihpos a b]
                          exact set_preserves_char hs1 hac (by decide) hcF a b
                        · unfold finish_count at ihfin ⊢
                          rw [ihfin]
                          exact grid_countP_set_eq _ hs1 hac (by decide) hF
                        · intro hno
                          have hcAt : c ≠ '@' := by
                            intro he
                            subst he
                            have := grid_countP_pos (fun ch => ch == '@') hac (by decide)
                            omega
                          have hcAtb : (c == '@') = false :=
                            beq_eq_false_iff_ne.mpr hcAt
                          have hno1 : grid_countP (fun ch => ch == '@') s1 = 0 := by
                            rw [grid_countP_set_eq _ hs1 hac (by decide) hcAtb]
                            exact hno
                          obtain ⟨ha1, ha2⟩ := ihat hno1
                          refine ⟨ha1, ?_⟩
                          unfold actor_count at ha2 ⊢
                          rw [ha2]
                          refine grid_countP_set_eq _ hs1 hac (by decide) ?_
                          unfold actor_char
                          rw [hcG, hcAtb, hY]
                          rfl
                  · rw [if_neg hd2] at h
                    simp only [] at h
                    have hn : next_pos row col dir = none := by
                      have e1 : ¬ ((dir == 'h') = true) := fun hh =>
                        hd1 (by simp [hh])
                      have e2 : ¬ ((dir == 'l') = true) := fun hh =>
                        hd1 (by simp [hh])
                      have e3 : ¬ ((dir == 'k') = true) := fun hh =>
                        hd2 (by simp [hh])
                      have e4 : ¬ ((dir == 'j') = true) := fun hh =>
                        hd2 (by simp [hh])
                      unfold next_pos
                      rw [if_neg e1, if_neg e2, if_neg e3, if_neg e4]
                    rw [hn] at h
                    simp at h

/-! ### Effect of beam clearing and the full laser recomputation -/

theorem clear_positions_master :
    ∀ (ps : List (Int × Int)) (s s2 : Grid),
      clear_positions s ps = .ok s2 →
      s2.map List.length = s.map List.length ∧
      (∀ t : Char, t ≠ ' ' → (∀ q ∈ ps, at_posE s q.1 q.2 ≠ .ok t) →
        ∀ a b : Int, (at_posE s2 a b = .ok t ↔ at_posE s a b = .ok t)) ∧
      (∀ p : Char → Bool, p ' ' = false →
        (∀ q ∈ ps, ∀ y, at_posE s q.1 q.2 = .ok y → p y = false) →
        grid_countP p s2 = grid_countP p s) := by
  intro ps
  induction ps with
  | nil =>
    intro s s2 h
    unfold clear_positions at h
    injection h with h
    subst h
    exact ⟨rfl, fun t ht hq a b => Iff.rfl, fun p hp hq => rfl⟩
  | cons q rest ih =>
    intro s s2 h
    unfold clear_positions at h
    cases hs1 : set_at_posE s q.1 q.2 ' ' with
    | error e => rw [hs1] at h; simp at h
    | ok s1 =>
      rw [hs1] at h
      simp only [] at h
      obtain ⟨y0, hy0⟩ := at_of_set_ok hs1
      obtain ⟨ihsh, ihpos, ihcnt⟩ := ih s1 s2 h
      refine ⟨?_, ?_, ?_⟩
      · rw [ihsh, set_at_posE_shape hs1]
      · intro t ht hq a b
        have hy0t : y0 ≠ t := fun he =>
          hq q (List.mem_cons_self q rest) (he ▸ hy0)
        have hrest : ∀ q2 ∈ rest, at_posE s1 q2.1 q2.2 ≠ .ok t := by
          intro q2 hq2 hat2
          by_cases hqq : (q2.1, q2.2) = (q.1, q.2)
          · have hsame : at_posE s1 q2.1 q2.2 = .ok ' ' := by
              rw [show q2.1 = q.1 from congrArg Prod.fst hqq,
                show q2.2 = q.2 from congrArg Prod.snd hqq]
              exact at_set_same hs1
            rw [hsame] at hat2
            injection hat2 with hat2
            exact ht hat2.symm
          · rw [at_set_other hs1 hqq] at hat2
            exact hq q2 (List.mem_cons_of_mem q hq2) hat2
        rw [ihpos t ht hrest a b]
        exact set_preserves_char hs1 hy0 (Ne.symm ht) hy0t a b
      · intro p hp hq
        have hrest : ∀ q2 ∈ rest, ∀ y, at_posE s1 q2.1 q2.2 = .ok y →
            p y = false := by
          intro q2 hq2 y hat2
          by_cases hqq : (q2.1, q2.2) = (q.1, q.2)
          · have hsame : at_posE s1 q2.1 q2.2 = .ok ' ' := by
              rw [show q2.1 = q.1 from congrArg Prod.fst hqq,
                show q2.2 = q.2 from congrArg Prod.snd hqq]
              exact at_set_same hs1
            rw [hsame] at hat2
            injection hat2 with hat2
            rw [← hat2]
            exact hp
          · rw [at_set_other hs1 hqq] at hat2
            exact hq q2 (List.mem_cons_of_mem q hq2) y hat2
        rw [ihcnt p hp hrest]
        exact grid_countP_set_eq _ hs1 hy0 hp
          (hq q (List.mem_cons_self q rest) y0 hy0)

theorem clear_beams_master {s s2 : Grid} (h : clear_beams s = .ok s2) :
    s2.map List.length = s.map List.length ∧
    (∀ t : Char, t ∉ ([' ', '|', '-', '+'] : List Char) →
      ∀ a b : Int, (at_posE s2 a b = .ok t ↔ at_posE s a b = .ok t)) ∧
    (∀ p : Char → Bool, p ' ' = false → p '|' = false → p '-' = false →
      p '+' = false → grid_countP p s2 = grid_countP p s) := by
  unfold clear_beams at h
  cases h1 : clear_positions s (find_pos s '|') with
  | error e => rw [h1] at h; simp at h
  | ok sa =>
    rw [h1] at h
    simp only [] at h
    cases h2 : clear_positions sa (find_pos sa '-') with
    | error e => rw [h2] at h; simp at h
    | ok sb =>
      rw [h2] at h
      simp only [] at h
      obtain ⟨sh1, pos1, cnt1⟩ := clear_positions_master _ _ _ h1
      obtain ⟨sh2, pos2, cnt2⟩ := clear_positions_master _ _ _ h2
      obtain ⟨sh3, pos3, cnt3⟩ := clear_positions_master _ _ _ h
      have hqv : ∀ (x : Char) (sx : Grid) (t : Char), t ≠ x →
          ∀ q ∈ find_pos sx x, at_posE sx q.1 q.2 ≠ .ok t := by
        intro x sx t ht q hq hat
        have hxx := (at_of_mem_find_pos hq).symm.trans hat
        injection hxx with hxx
        exact ht hxx.symm
      have hqp : ∀ (x : Char) (sx : Grid) (p : Char → Bool), p x = false →
          ∀ q ∈ find_pos sx x, ∀ y, at_posE sx q.1 q.2 = .ok y →
            p y = false := by
        intro x sx p hpx q hq y hat
        have hxx := (at_of_mem_find_pos hq).symm.trans hat
        injection hxx with hxx
        rw [← hxx]
        exact hpx
      refine ⟨?_, ?_, ?_⟩
      · rw [sh3, sh2, sh1]
      · intro t ht a b
        have ht1 : t ≠ ' ' := fun he => ht (he ▸ (by simp))
        have ht2 : t ≠ '|' := fun he => ht (he ▸ (by simp))
        have ht3 : t ≠ '-' := fun he => ht (he ▸ (by simp))
        have ht4 : t ≠ '+' := fun he => ht (he ▸ (by simp))
        rw [pos3 t ht1 (hqv '+' sb t ht4) a b]
        rw [pos2 t ht1 (hqv '-' sa t ht3) a b]
        exact pos1 t ht1 (hqv '|' s t ht2) a b
      · intro p hp1 hp2 hp3 hp4
        rw [cnt3 p hp1 (hqp '+' sb p hp4)]
        rw [cnt2 p hp1 (hqp '-' sa p hp3)]
        exact cnt1 p hp1 (hqp '|' s p hp2)

theorem trace_all_master {height width : Nat} :
    ∀ (ls : List (Int × Int × Char)) (fuel : Nat) (s s2 : Grid),
      trace_all fuel height width s ls = .ok s2 →
      s2.map List.length = s.map List.length ∧
      (∀ a b : Int, (at_posE s2 a b = .ok 'F' ↔ at_posE s a b = .ok 'F')) ∧
      finish_count s2 = finish_count s ∧
      (grid_countP (fun ch => ch == '@') s = 0 →
        grid_countP (fun ch => ch == '@') s2 = 0 ∧
          actor_count s2 = actor_count s) := by
  intro ls
  induction ls with
  | nil =>
    intro fuel s s2 h
    unfold trace_all at h
    injection h with h
    subst h
    exact ⟨rfl, fun a b => Iff.rfl, rfl, fun hno => ⟨hno, rfl⟩⟩
  | cons l rest ih =>
    intro fuel s s2 h
    unfold trace_all at h
    cases h1 : trace_laser fuel height width s l with
    | error e => rw [h1] at h; simp at h
    | ok s1 =>
      rw [h1] at h
      simp only [] at h
      unfold trace_laser at h1
      cases hnp : next_pos l.1 l.2.1 l.2.2 with
      | none => rw [hnp] at h1; simp at h1
      | some p =>
        rw [hnp] at h1
        simp only [] at h1
        obtain ⟨tsh, tpos, tfin, tat⟩ := trace_loop_master fuel s p.1 p.2 s1 h1
        obtain ⟨ihsh, ihpos, ihfin, ihat⟩ := ih fuel s1 s2 h
        refine ⟨?_, ?_, ?_, ?_⟩
        · rw [ihsh, tsh]
        · intro a b
          rw [ihpos a b]
          exact tpos a b
        · rw [ihfin, tfin]
        · intro hno
          obtain ⟨t1, t2⟩ := tat hno
          obtain ⟨i1, i2⟩ := ihat t1
          exact ⟨i1, by rw [i2, t2]⟩

theorem update_lasers_master {fuel : Nat} {s s2 : Grid}
    (h : update_lasers fuel s = .ok s2) :
    s2.map List.length = s.map List.length ∧
    (∀ a b : Int, (at_posE s2 a b = .ok 'F' ↔ at_posE s a b = .ok 'F')) ∧
    finish_count s2 = finish_count s ∧
    (grid_countP (fun ch => ch == '@') s = 0 →
      grid_countP (fun ch => ch == '@') s2 = 0 ∧
        actor_count s2 = actor_count s) := by
  unfold update_lasers at h
  cases h1 : clear_beams s with
  | error e => rw [h1] at h; simp at h
  | ok sa =>
    rw [h1] at h
    simp only [] at h
    obtain ⟨csh, cpos, ccnt⟩ := clear_beams_master h1
    obtain ⟨tsh, tpos, tfin, tat⟩ := trace_all_master _ _ _ _ h
    refine ⟨?_, ?_, ?_, ?_⟩
    · rw [tsh, csh]
    · intro a b
      rw [tpos a b]
      exact cpos 'F' (by decide) a b
    · unfold finish_count at tfin ⊢
      rw [tfin]
      exact ccnt _ (by decide) (by decide) (by decide) (by decide)
    · intro hno
      have hnoa : grid_countP (fun ch => ch == '@') sa = 0 := by
        rw [ccnt _ (by decide) (by decide) (by decide) (by decide)]
        exact hno
      obtain ⟨t1, t2⟩ := tat hnoa
      refine ⟨t1, ?_⟩
      unfold actor_count at t2 ⊢
      rw [t2]
      exact ccnt _ (by decide) (by decide) (by decide) (by decide)

theorem move_master {fuel : Nat} {s : Grid} {dir : Char} {st : Nat} {s2 : Grid}
    (h : move fuel s dir = .ok (st, s2)) :
    s2.map List.length = s.map List.length ∧
    (∀ a b : Int, (at_posE s2 a b = .ok 'F' ↔ at_posE s a b = .ok 'F')) ∧
    finish_count s2 = finish_count s ∧
    actor_count s2 = actor_count s := by
  unfold move at h
  simp only [] at h
  cases hg : find_pos s 'G' with
  | nil =>
    rw [hg] at h
    simp only [] at h
    cases ha : find_pos s '@' with
    | cons q rest =>
      rw [ha] at h
      simp only [] at h
      injection h with h
      injection h with hst hgrid
      subst hgrid
      exact ⟨rfl, fun a b => Iff.rfl, rfl, rfl⟩
    | nil =>
      rw [ha] at h
      simp only [] at h
      cases hy : find_pos s 'Y' with
      | cons q rest =>
        rw [hy] at h
        simp only [] at h
        injection h with h
        injection h with hst hgrid
        subst hgrid
        exact ⟨rfl, fun a b => Iff.rfl, rfl, rfl⟩
      | nil =>
        rw [hy] at h
        simp only [] at h
        injection h with h
        injection h with hst hgrid
        subst hgrid
        exact ⟨rfl, fun a b => Iff.rfl, rfl, rfl⟩
  | cons q rest =>
    rw [hg] at h
    simp only [] at h
    obtain ⟨row, col⟩ := q
    have hmem : ((row, col) : Int × Int) ∈ find_pos s 'G' := by
      rw [hg]
      exact List.mem_cons_self _ _
    have hat : at_posE s row col = .ok 'G' := at_of_mem_find_pos hmem
    exact move_loop_master fuel s row col st s2 hat h

/-- C3: for every grid with exactly one actor tile (live, victorious or
defeated ram), a completed move call preserves that count for any direction;
a completed update_lasers call preserves it provided the grid holds no
victorious ram, because a beam tracing over a RamVictorious tile overwrites
it (the original claim fails in exactly that case). -/
theorem C3_amended (fuel : Nat) (s : Grid) (dir : Char) (st : Nat)
    (s1 s2 : Grid) :
    (actor_count s = 1 → move fuel s dir = .ok (st, s1) →
      actor_count s1 = 1) ∧
    (actor_count s = 1 → grid_countP (fun ch => ch == '@') s = 0 →
      update_lasers fuel s = .ok s2 → actor_count s2 = 1) := by
  constructor
  · intro hone h
    rw [(move_master h).2.2.2]
    exact hone
  · intro hone hno h
    rw [((update_lasers_master h).2.2.2 hno).2]
    exact hone

/-- C3 witness: on the one-row grid G, space, F a rightward move ends in
Trail, RamVictorious, Finish, still with exactly one actor tile; the same
grid has no emitters, so update_lasers keeps it unchanged with one actor. -/
theorem C3_witness :
    actor_count [['.', '@', 'F']] = 1 ∧ actor_count [['G', ' ', 'F']] = 1 :=
  ⟨(C3_amended 10 [['G', ' ', 'F']] 'l' _victory [['.', '@', 'F']]
      [['G', ' ', 'F']]).1 (by decide) (by rfl),
    (C3_amended 10 [['G', ' ', 'F']] 'l' _victory [['.', '@', 'F']]
      [['G', ' ', 'F']]).2 (by decide) (by decide) (by rfl)⟩

/-- C3 counterexample: the grid with one row holding a rightward emitter, a
victorious ram and a finish contains exactly one actor tile, but a single
update_lasers call overwrites the RamVictorious tile with a horizontal beam,
leaving zero actor tiles, so the claim as stated is false. -/
theorem C3_counterexample :
    actor_count [['>', '@', 'F']] = 1 ∧
    update_lasers 100 [['>', '@', 'F']] = .ok [['>', '-', 'F']] ∧
    actor_count [['>', '-', 'F']] ≠ 1 :=
  ⟨by decide, by rfl, by decide⟩

/-- C9: a completed move call (any direction) and a completed update_lasers
call keep every Finish tile in place and leave the total number of Finish
tiles unchanged; in particular victory writes the RamVictorious marker on
the tile the ram stands on and never consumes the Finish tile. -/
theorem C9_finish_frame (fuel : Nat) (s : Grid) (dir : Char) (st : Nat)
    (s1 s2 : Grid) :
    (move fuel s dir = .ok (st, s1) →
      (∀ a b : Int, at_posE s a b = .ok 'F' → at_posE s1 a b = .ok 'F') ∧
      finish_count s1 = finish_count s) ∧
    (update_lasers fuel s = .ok s2 →
      (∀ a b : Int, at_posE s a b = .ok 'F' → at_posE s2 a b = .ok 'F') ∧
      finish_count s2 = finish_count s) := by
  constructor
  · intro h
    obtain ⟨_, hpos, hfin, _⟩ := move_master h
    exact ⟨fun a b hf => (hpos a b).mpr hf, hfin⟩
  · intro h
    obtain ⟨_, hpos, hfin, _⟩ := update_lasers_master h
    exact ⟨fun a b hf => (hpos a b).mpr hf, hfin⟩

/-- C9 witness: on the one-row grid G, space, F the winning rightward move
keeps the Finish tile at column 2 and keeps the Finish count at one, and
update_lasers on the emitter row G, dot, dot, dot, left-emitter keeps its
Finish count at zero. -/
theorem C9_witness :
    at_posE [['.', '@', 'F']] 0 2 = .ok 'F' ∧
    finish_count [['.', '@', 'F']] = finish_count [['G', ' ', 'F']] ∧
    finish_count [['Y', '-', '-', '-', '<']] =
      finish_count [['G', '.', '.', '.', '<']] :=
  ⟨((C9_finish_frame 10 [['G', ' ', 'F']] 'l' _victory [['.', '@', 'F']]
        [['G', ' ', 'F']]).1 (by rfl)).1 0 2 (by rfl),
    ((C9_finish_frame 10 [['G', ' ', 'F']] 'l' _victory [['.', '@', 'F']]
        [['G', ' ', 'F']]).1 (by rfl)).2,
    ((C9_finish_frame 100 [['G', '.', '.', '.', '<']] 'l' _victory
        [['.', '@', 'F']] [['Y', '-', '-', '-', '<']]).2 (by rfl)).2⟩

/-! ### Bounds safety -/

/-- The position denotes an existing cell of the grid. -/
def InRange (s : Grid) (q : Int × Int) : Prop :=
  0 ≤ q.1 ∧ 0 ≤ q.2 ∧ ∃ r, s.get? q.1.toNat = some r ∧ q.2.toNat < r.length

theorem inRange_of_shape_eq {s s2 : Grid} {q : Int × Int}
    (hsh : s2.map List.length = s.map List.length) (h : InRange s q) :
    InRange s2 q := by
  obtain ⟨h1, h2, r, hr, hlen⟩ := h
  have hm : (s.map List.length).get? q.1.toNat = some r.length := by
    rw [List.get?_map, hr]
    rfl
  rw [← hsh, List.get?_map] at hm
  cases hr2 : s2.get? q.1.toNat with
  | none => rw [hr2] at hm; simp at hm
  | some r2 =>
    rw [hr2] at hm
    injection hm with hm
    exact ⟨h1, h2, r2, hr2, by omega⟩

theorem set_ok_of_InRange {s : Grid} {q : Int × Int} (h : InRange s q)
    (x : Char) : ∃ s2, set_at_posE s q.1 q.2 x = .ok s2 := by
  obtain ⟨h1, h2, r, hr, hlen⟩ := h
  exact ⟨_, set_at_posE_ok_of_get h1 h2 hr hlen x⟩

theorem InRange_of_mem_find_pos {s : Grid} {x : Char} {q : Int × Int}
    (hq : q ∈ find_pos s x) : InRange s q := by
  obtain ⟨a, b, h1, _, r, h3, h4⟩ := mem_find_pos_aux s 0 q hq
  subst h1
  simp only [Nat.sub_zero] at h3
  exact ⟨by simp, by simp, r, by simpa using h3,
    by simpa using (List.get?_eq_some.mp h4).1⟩

theorem slide_loop_no_oob {dir : Char} {height width : Nat}
    (hdir : dir = 'h' ∨ dir = 'j' ∨ dir = 'k' ∨ dir = 'l') :
    ∀ (fuel : Nat) (s : Grid) (row col : Int),
      Rect height width s → in_bounds height width row col = true →
      ∀ e, slide_loop fuel s dir row col height width = .error e →
        e = .fuelOut := by
  intro fuel
  induction fuel with
  | zero =>
    intro s row col hrect hb e h
    unfold slide_loop at h
    injection h with h
    exact h.symm
  | succ fuel ih =>
    intro s row col hrect hb e h
    unfold slide_loop at h
    obtain ⟨np, hnp⟩ := next_pos_isSome row col hdir
    rw [hnp] at h
    obtain ⟨nrow, ncol⟩ := np
    simp only [] at h
    by_cases hb2 : in_bounds height width nrow ncol = true
    case neg => rw [if_neg hb2] at h; simp at h
    case pos =>
      rw [if_pos hb2] at h
      obtain ⟨nc, hnc⟩ := at_posE_ok_of_rect hrect hb2
      rw [hnc] at h
      simp only [] at h
      by_cases g1 : (nc == ' ' || nc == '_' || nc == '.' || nc == 'x' ||
          nc == '|' || nc == '-' || nc == '+') = true
      · rw [if_pos g1] at h
        obtain ⟨s1, hs1⟩ := set_at_posE_ok_of_rect hrect hb ' '
        rw [hs1] at h
        simp only [] at h
        have hrect1 : Rect height width s1 :=
          rect_of_shape_eq (set_at_posE_shape hs1) hrect
        obtain ⟨s2, hs2⟩ := set_at_posE_ok_of_rect hrect1 hb2 'w'
        rw [hs2] at h
        simp only [] at h
        have hrect2 : Rect height width s2 :=
          rect_of_shape_eq (set_at_posE_shape hs2) hrect1
        exact ih s2 nrow ncol hrect2 hb2 e h
      · rw [if_neg g1] at h
        by_cases g2 : (nc == 'o') = true
        · rw [if_pos g2] at h
          obtain ⟨s1, hs1⟩ := set_at_posE_ok_of_rect hrect hb ' '
          rw [hs1] at h
          simp only [] at h
          have hrect1 : Rect height width s1 :=
            rect_of_shape_eq (set_at_posE_shape hs1) hrect
          obtain ⟨s2, hs2⟩ := set_at_posE_ok_of_rect hrect1 hb2 '_'
          rw [hs2] at h
          simp only [] at h
          simp at h
        · rw [if_neg g2] at h
          simp at h

theorem move_loop_no_oob {dir : Char} {height width : Nat}
    (hdir : dir = 'h' ∨ dir = 'j' ∨ dir = 'k' ∨ dir = 'l') :
    ∀ (fuel : Nat) (s : Grid) (row col : Int),
      Rect height width s → in_bounds height width row col = true →
      ∀ e, move_loop fuel s dir row col height width = .error e →
        e = .fuelOut := by
  intro fuel
  induction fuel with
  | zero =>
    intro s row col hrect hb e h
    unfold move_loop at h
    injection h with h
    exact h.symm
  | succ fuel ih =>
    intro s row col hrect hb e h
    unfold move_loop at h
    obtain ⟨np, hnp⟩ := next_pos_isSome row col hdir
    rw [hnp] at h
    obtain ⟨nrow, ncol⟩ := np
    simp only [] at h
    by_cases hb2 : in_bounds height width nrow ncol = true
    case neg => rw [if_neg hb2] at h; simp at h
    case pos =>
      rw [if_pos hb2] at h
      obtain ⟨c, hc⟩ := at_posE_ok_of_rect hrect hb2
      rw [hc] at h
      simp only [] at h
      by_cases g1 : (c == ' ' || c == '_' || c == '.') = true
      · rw [if_pos g1] at h
        obtain ⟨s1, hs1⟩ := set_at_posE_ok_of_rect hrect hb2 'G'
        rw [hs1] at h
        simp only [] at h
        have hrect1 : Rect height width s1 :=
          rect_of_shape_eq (set_at_posE_shape hs1) hrect
        obtain ⟨s2, hs2⟩ := set_at_posE_ok_of_rect hrect1 hb '.'
        rw [hs2] at h
        simp only [] at h
        have hrect2 : Rect height width s2 :=
          rect_of_shape_eq (set_at_posE_shape hs2) hrect1
        exact ih s2 nrow ncol hrect2 hb2 e h
      · rw [if_neg g1] at h
        by_cases g2 : (c == 'M') = true
        · rw [if_pos g2] at h
          obtain ⟨s1, hs1⟩ := set_at_posE_ok_of_rect hrect hb2 'm'
          rw [hs1] at h
          simp at h
        · rw [if_neg g2] at h
          by_cases g3 : (c == 'm') = true
          · rw [if_pos g3] at h
            obtain ⟨s1, hs1⟩ := set_at_posE_ok_of_rect hrect hb2 '_'
            rw [hs1] at h
            simp at h
          · rw [if_neg g3] at h
            by_cases g4 : (c == 'v' || c == '^' || c == '<' || c == '>') = true
            · rw [if_pos g4] at h
              obtain ⟨s1, hs1⟩ := set_at_posE_ok_of_rect hrect hb2 '_'
              rw [hs1] at h
              simp at h
            · rw [if_neg g4] at h
              by_cases g5 : (c == 'F') = true
              · rw [if_pos g5] at h
                obtain ⟨s1, hs1⟩ := set_at_posE_ok_of_rect hrect hb '@'
                rw [hs1] at h
                simp at h
              · rw [if_neg g5] at h
                by_cases g6 : (c == 'x' || c == '|' || c == '-') = true
                · rw [if_pos g6] at h
                  obtain ⟨s1, hs1⟩ := set_at_posE_ok_of_rect hrect hb 'Y'
                  rw [hs1] at h
                  simp at h
                · rw [if_neg g6] at h
                  by_cases g7 : (c == 'o') = true
                  · rw [if_pos g7] at h
                    obtain ⟨s1, hs1⟩ := set_at_posE_ok_of_rect hrect hb2 'G'
                    rw [hs1] at h
                    simp only [] at h
                    have hrect1 : Rect height width s1 :=
                      rect_of_shape_eq (set_at_posE_shape hs1) hrect
                    obtain ⟨s2, hs2⟩ := set_at_posE_ok_of_rect hrect1 hb '.'
                    rw [hs2] at h
                    simp at h
                  · rw [if_neg g7] at h
                    by_cases g8 : (c == 'W') = true
                    · rw [if_pos g8] at h
                      obtain ⟨op, hnp2⟩ :=
                        next_pos_isSome nrow ncol hdir
                      rw [hnp2] at h
                      obtain ⟨orow, ocol⟩ := op
                      simp only [] at h
                      by_cases hb3 : in_bounds height width orow ocol = true
                      case neg => rw [if_neg hb3] at h; simp at h
                      case pos =>
                        rw [if_pos hb3] at h
                        obtain ⟨nc, hoc⟩ := at_posE_ok_of_rect hrect hb3
                        rw [hoc] at h
                        simp only [] at h
                        by_cases w1 : (nc == ' ' || nc == '_' || nc == '.' ||
                            nc == 'x' || nc == '|' || nc == '-' ||
                            nc == '+') = true
                        · rw [if_pos w1] at h
                          obtain ⟨s1, hs1⟩ := set_at_posE_ok_of_rect hrect hb3 'W'
                          rw [hs1] at h
                          simp only [] at h
                          have hrect1 : Rect height width s1 :=
                            rect_of_shape_eq (set_at_posE_shape hs1) hrect
                          obtain ⟨s2, hs2⟩ := set_at_posE_ok_of_rect hrect1 hb2 'G'
                          rw [hs2] at h
                          simp only [] at h
                          have hrect2 : Rect height width s2 :=
                            rect_of_shape_eq (set_at_posE_shape hs2) hrect1
                          obtain ⟨s3, hs3⟩ := set_at_posE_ok_of_rect hrect2 hb '.'
                          rw [hs3] at h
                          simp at h
                        · rw [if_neg w1] at h
                          by_cases w2 : (nc == 'o') = true
                          · rw [if_pos w2] at h
                            obtain ⟨s1, hs1⟩ := set_at_posE_ok_of_rect hrect hb3 '_'
                            rw [hs1] at h
                            simp only [] at h
                            have hrect1 : Rect height width s1 :=
                              rect_of_shape_eq (set_at_posE_shape hs1) hrect
                            obtain ⟨s2, hs2⟩ := set_at_posE_ok_of_rect hrect1 hb2 'G'
                            rw [hs2] at h
                            simp only [] at h
                            have hrect2 : Rect height width s2 :=
                              rect_of_shape_eq (set_at_posE_shape hs2) hrect1
                            obtain ⟨s3, hs3⟩ := set_at_posE_ok_of_rect hrect2 hb '.'
                            rw [hs3] at h
                            simp at h
                          · rw [if_neg w2] at h
                            simp at h
                    · rw [if_neg g8] at h
                      by_cases g9 : (c == 'w') = true
                      · rw [if_pos g9] at h
                        cases hsl : slide_loop fuel s dir nrow ncol height width with
                        | error e2 =>
                          rw [hsl] at h
                          simp only [] at h
                          injection h with h
                          rw [← h]
                          exact slide_loop_no_oob hdir fuel s nrow ncol
                            hrect hb2 e2 hsl
                        | ok s1 => rw [hsl] at h; simp at h
                      · rw [if_neg g9] at h
                        simp at h

theorem trace_loop_no_oob {dir : Char} {height width : Nat}
    (hdir : dir = 'h' ∨ dir = 'j' ∨ dir = 'k' ∨ dir = 'l') :
    ∀ (fuel : Nat) (s : Grid) (row col : Int),
      Rect height width s →
      ∀ e, trace_loop fuel s dir row col height width = .error e →
        e = .fuelOut := by
  intro fuel
  induction fuel with
  | zero =>
    intro s row col hrect e h
    unfold trace_loop at h
    injection h with h
    exact h.symm
  | succ fuel ih =>
    intro s row col hrect e h
    unfold trace_loop at h
    by_cases hb : in_bounds height width row col = true
    case neg => rw [if_neg hb] at h; simp at h
    case pos =>
      rw [if_pos hb] at h
      obtain ⟨c, hc⟩ := at_posE_ok_of_rect hrect hb
      rw [hc] at h
      simp only [] at h
      obtain ⟨np, hnp⟩ := next_pos_isSome row col hdir
      by_cases b1 : (c == '-' && (dir == 'j' || dir == 'k')) = true
      · rw [if_pos b1] at h
        obtain ⟨s1, hs1⟩ := set_at_posE_ok_of_rect hrect hb '+'
        rw [hs1] at h
        simp only [] at h
        rw [hnp] at h
        simp only [] at h
        exact ih s1 np.1 np.2
          (rect_of_shape_eq (set_at_posE_shape hs1) hrect) e h
      · rw [if_neg b1] at h
        by_cases b2 : (c == '|' && (dir == 'h' || dir == 'l')) = true
        · rw [if_pos b2] at h
          obtain ⟨s1, hs1⟩ := set_at_posE_ok_of_rect hrect hb '+'
          rw [hs1] at h
          simp only [] at h
          rw [hnp] at h
          simp only [] at h
          exact ih s1 np.1 np.2
            (rect_of_shape_eq (set_at_posE_shape hs1) hrect) e h
        · rw [if_neg b2] at h
          by_cases b3 : (c == 'G') = true
          · rw [if_pos b3] at h
            obtain ⟨s1, hs1⟩ := set_at_posE_ok_of_rect hrect hb 'Y'
            rw [hs1] at h
            simp at h
          · rw [if_neg b3] at h
            by_cases b4 : laser_blocking c = true
            · rw [if_pos b4] at h
              simp at h
            · rw [if_neg b4] at h
              have hset : ∃ s1,
                  (if (dir == 'h' || dir == 'l') = true then
                    set_at_posE s row col '-'
                  else if (dir == 'j' || dir == 'k') = true then
                    set_at_posE s row col '|'
                  else .ok s) = .ok s1 ∧
                  s1.map List.length = s.map List.length := by
                by_cases hd1 : (dir == 'h' || dir == 'l') = true
                · rw [if_pos hd1]
                  obtain ⟨s1, hs1⟩ := set_at_posE_ok_of_rect hrect hb '-'
                  exact ⟨s1, hs1, set_at_posE_shape hs1⟩
                · rw [if_neg hd1]
                  by_cases hd2 : (dir == 'j' || dir == 'k') = true
                  · rw [if_pos hd2]
                    obtain ⟨s1, hs1⟩ := set_at_posE_ok_of_rect hrect hb '|'
                    exact ⟨s1, hs1, set_at_posE_shape hs1⟩
                  · rw [if_neg hd2]
                    exact ⟨s, rfl, rfl⟩
              obtain ⟨s1, hs1, hsh1⟩ := hset
              rw [hs1] at h
              simp only [] at h
              rw [hnp] at h
              simp only [] at h
              exact ih s1 np.1 np.2 (rect_of_shape_eq hsh1 hrect) e h

theorem clear_positions_total :
    ∀ (ps : List (Int × Int)) (s : Grid), (∀ q ∈ ps, InRange s q) →
      ∃ s2, clear_positions s ps = .ok s2 ∧
        s2.map List.length = s.map List.length := by
  intro ps
  induction ps with
  | nil => intro s hps; exact ⟨s, rfl, rfl⟩
  | cons q rest ih =>
    intro s hps
    obtain ⟨s1, hs1⟩ := set_ok_of_InRange (hps q (List.mem_cons_self q rest)) ' '
    have hsh1 := set_at_posE_shape hs1
    obtain ⟨s2, hs2, hsh2⟩ := ih s1 (fun q2 hq2 =>
      inRange_of_shape_eq hsh1 (hps q2 (List.mem_cons_of_mem q hq2)))
    refine ⟨s2, ?_, by rw [hsh2, hsh1]⟩
    unfold clear_positions
    rw [hs1]
    simp only []
    exact hs2

theorem clear_beams_total (s : Grid) :
    ∃ s2, clear_beams s = .ok s2 ∧
      s2.map List.length = s.map List.length := by
  obtain ⟨sa, ha, hsha⟩ := clear_positions_total (find_pos s '|') s
    (fun q hq => InRange_of_mem_find_pos hq)
  obtain ⟨sb, hbb, hshb⟩ := clear_positions_total (find_pos sa '-') sa
    (fun q hq => InRange_of_mem_find_pos hq)
  obtain ⟨sc, hcc, hshc⟩ := clear_positions_total (find_pos sb '+') sb
    (fun q hq => InRange_of_mem_find_pos hq)
  refine ⟨sc, ?_, by rw [hshc, hshb, hsha]⟩
  unfold clear_beams
  rw [ha]
  simp only []
  rw [hbb]
  simp only []
  exact hcc

theorem collect_lasers_dir {s : Grid} {l : Int × Int × Char}
    (hl : l ∈ collect_lasers s) :
    l.2.2 = 'h' ∨ l.2.2 = 'j' ∨ l.2.2 = 'k' ∨ l.2.2 = 'l' := by
  unfold collect_lasers at hl
  rcases List.mem_append.mp hl with hm | hm
  · rcases List.mem_append.mp hm with hm2 | hm2
    · rcases List.mem_append.mp hm2 with hm3 | hm3
      · obtain ⟨p, _, hp⟩ := List.mem_map.mp hm3
        rw [← hp]
        tauto
      · obtain ⟨p, _, hp⟩ := List.mem_map.mp hm3
        rw [← hp]
        tauto
    · obtain ⟨p, _, hp⟩ := List.mem_map.mp hm2
      rw [← hp]
      tauto
  · obtain ⟨p, _, hp⟩ := List.mem_map.mp hm
    rw [← hp]
    tauto

theorem trace_all_no_oob {height width : Nat} :
    ∀ (ls : List (Int × Int × Char)) (fuel : Nat) (s : Grid),
      Rect height width s →
      (∀ l ∈ ls, l.2.2 = 'h' ∨ l.2.2 = 'j' ∨ l.2.2 = 'k' ∨ l.2.2 = 'l') →
      ∀ e, trace_all fuel height width s ls = .error e → e = .fuelOut := by
  intro ls
  induction ls with
  | nil =>
    intro fuel s hrect hdirs e h
    unfold trace_all at h
    simp at h
  | cons l rest ih =>
    intro fuel s hrect hdirs e h
    unfold trace_all at h
    cases h1 : trace_laser fuel height width s l with
    | error e2 =>
      rw [h1] at h
      simp only [] at h
      injection h with h
      rw [← h]
      unfold trace_laser at h1
      obtain ⟨np, hnp⟩ := next_pos_isSome l.1 l.2.1
        (hdirs l (List.mem_cons_self l rest))
      rw [hnp] at h1
      simp only [] at h1
      exact trace_loop_no_oob (hdirs l (List.mem_cons_self l rest))
        fuel s np.1 np.2 hrect e2 h1
    | ok s1 =>
      rw [h1] at h
      simp only [] at h
      unfold trace_laser at h1
      obtain ⟨np, hnp⟩ := next_pos_isSome l.1 l.2.1
        (hdirs l (List.mem_cons_self l rest))
      rw [hnp] at h1
      simp only [] at h1
      obtain ⟨tsh, _, _, _⟩ := trace_loop_master fuel s np.1 np.2 s1 h1
      exact ih fuel s1 (rect_of_shape_eq tsh hrect)
        (fun l2 hl2 => hdirs l2 (List.mem_cons_of_mem l hl2)) e h

theorem update_lasers_no_oob {height width : Nat} {fuel : Nat} {s : Grid}
    (hrect : Rect height width s) (hh : 0 < height) :
    ∀ e, update_lasers fuel s = .error e → e = .fuelOut := by
  intro e h
  unfold update_lasers at h
  obtain ⟨sa, ha, hsha⟩ := clear_beams_total s
  rw [ha] at h
  simp only [] at h
  have hrecta : Rect height width sa := rect_of_shape_eq hsha hrect
  rw [bounds_of_rect hrecta hh] at h
  exact trace_all_no_oob (collect_lasers sa) fuel sa hrecta
    (fun l hl => collect_lasers_dir hl) e h

theorem move_no_oob {height width : Nat} {fuel : Nat} {s : Grid} {dir : Char}
    (hrect : Rect height width s) (hh : 0 < height)
    (hdir : dir = 'h' ∨ dir = 'j' ∨ dir = 'k' ∨ dir = 'l') :
    ∀ e, move fuel s dir = .error e → e = .fuelOut := by
  intro e h
  unfold move at h
  simp only [] at h
  rw [bounds_of_rect hrect hh] at h
  cases hg : find_pos s 'G' with
  | nil =>
    rw [hg] at h
    simp only [] at h
    cases ha : find_pos s '@' with
    | cons q rest => rw [ha] at h; simp at h
    | nil =>
      rw [ha] at h
      simp only [] at h
      cases hy : find_pos s 'Y' with
      | cons q rest => rw [hy] at h; simp at h
      | nil => rw [hy] at h; simp at h
  | cons q rest =>
    rw [hg] at h
    simp only [] at h
    obtain ⟨row, col⟩ := q
    have hmem : ((row, col) : Int × Int) ∈ find_pos s 'G' := by
      rw [hg]
      exact List.mem_cons_self _ _
    have hb : in_bounds height width row col = true :=
      in_bounds_of_mem_find_pos hrect hmem
    exact move_loop_no_oob hdir fuel s row col hrect hb e h

/-- C10: for every rectangular non-empty grid and every direction among the
four movement symbols, move and update_lasers only ever read or write cells
inside the grid: with out-of-range accesses modelled as the oob error and
the unknown-direction unpacking as the badDir error, neither operation can
return any error other than running out of loop fuel. -/
theorem C10_bounds_safety (height width fuel : Nat) (s : Grid) (dir : Char)
    (e : Err) (hrect : Rect height width s) (hh : 0 < height)
    (hdir : dir = 'h' ∨ dir = 'j' ∨ dir = 'k' ∨ dir = 'l') :
    (move fuel s dir = .error e → e = .fuelOut) ∧
    (update_lasers fuel s = .error e → e = .fuelOut) :=
  ⟨move_no_oob hrect hh hdir e, update_lasers_no_oob hrect hh e⟩

/-- C10 witness: the rectangular one-row grid G, space, F with a rightward
move satisfies the preconditions, and both operations indeed refuse to
produce the out-of-bounds error on it. -/
theorem C10_witness :
    Rect 1 3 [['G', ' ', 'F']] ∧
    (move 10 [['G', ' ', 'F']] 'l' = .error Err.oob → Err.oob = .fuelOut) ∧
    (update_lasers 10 [['G', ' ', 'F']] = .error Err.oob →
      Err.oob = .fuelOut) :=
  ⟨by rfl,
    (C10_bounds_safety 1 3 10 [['G', ' ', 'F']] 'l' Err.oob (by rfl)
      (by decide) (by tauto)).1,
    (C10_bounds_safety 1 3 10 [['G', ' ', 'F']] 'l' Err.oob (by rfl)
      (by decide) (by tauto)).2⟩

/-! ### The sliding-weight, beam-cross, emitter-order and scenario claims -/

/-- C1 counterexample: on the valid grid G, w, space, space, F a rightward
move slides the weight from column 1 to column 3, but the ram stays on
column 0 and the weight's starting tile becomes Floor, so the claim that the
ram ends the turn standing on the tile where the weight started is false. -/
theorem C1_counterexample :
    (validate_state [['G', 'w', ' ', ' ', 'F']]).1 = _unfinished ∧
    move 100 [['G', 'w', ' ', ' ', 'F']] 'l' =
      .ok (_unfinished, [['G', ' ', ' ', 'w', 'F']]) ∧
    at_posE [['G', ' ', ' ', 'w', 'F']] 0 1 = .ok ' ' ∧
    at_posE [['G', ' ', ' ', 'w', 'F']] 0 0 = .ok 'G' :=
  ⟨by decide, by rfl, by rfl, by rfl⟩

/-- C1 (amended): when the tile ahead of the ram is a SlidingWeight, a
completed move call pushes only the weight: it always returns the
Unfinished status and the ram's own tile still holds the ram afterwards
(the ram does not advance at all). -/
theorem C1_amended (fuel : Nat) (s : Grid) (dir : Char)
    (row col nrow ncol : Int) (st : Nat) (s2 : Grid)
    (hhead : (find_pos s 'G').head? = some (row, col))
    (hnp : next_pos row col dir = some (nrow, ncol))
    (hb : in_bounds (bounds s).1 (bounds s).2 nrow ncol = true)
    (hw : at_posE s nrow ncol = .ok 'w')
    (h : move fuel s dir = .ok (st, s2)) :
    st = _unfinished ∧ at_posE s2 row col = .ok 'G' := by
  unfold move at h
  simp only [] at h
  cases hg : find_pos s 'G' with
  | nil => rw [hg] at hhead; simp at hhead
  | cons q rest =>
    rw [hg] at hhead
    simp only [List.head?] at hhead
    injection hhead with hhead
    subst hhead
    rw [hg] at h
    simp only [] at h
    cases fuel with
    | zero => unfold move_loop at h; simp at h
    | succ fuel =>
      unfold move_loop at h
      rw [hnp] at h
      simp only [] at h
      rw [if_pos hb, hw] at h
      simp only [] at h
      rw [if_neg (by decide), if_neg (by decide), if_neg (by decide),
        if_neg (by decide), if_neg (by decide), if_neg (by decide),
        if_neg (by decide), if_neg (by decide), if_pos (by decide)] at h
      cases hsl : slide_loop fuel s dir nrow ncol
          (bounds s).1 (bounds s).2 with
      | error e => rw [hsl] at h; simp at h
      | ok s1 =>
        rw [hsl] at h
        simp only [] at h
        injection h with h
        injection h with hst hgrid
        subst hgrid
        obtain ⟨_, mpos, _⟩ := slide_loop_master fuel s nrow ncol s1 hw hsl
        refine ⟨hst.symm, ?_⟩
        rw [mpos 'G' (by decide) row col]
        have hmem : ((row, col) : Int × Int) ∈ find_pos s 'G' := by
          rw [hg]
          exact List.mem_cons_self _ _
        exact at_of_mem_find_pos hmem

/-- C1 witness: on the grid G, w, space, F a rightward move returns
Unfinished and leaves the ram at the origin while the weight slid away. -/
theorem C1_witness :
    _unfinished = _unfinished ∧
    at_posE [['G', ' ', 'w', 'F']] 0 0 = .ok 'G' :=
  C1_amended 10 [['G', 'w', ' ', 'F']] 'l' 0 0 0 1 _unfinished
    [['G', ' ', 'w', 'F']] (by rfl) (by rfl) (by rfl) (by rfl) (by rfl)

/-- C2: moving into a BeamHorizontal or BeamVertical tile defeats the ram
as the claim says, but moving into a BeamCross tile hits the
unknown-character branch of move: the call returns the Invalid status and
leaves the grid unchanged instead of defeating the ram, contradicting the
specified behaviour that every beam tile acts as a trap. -/
theorem C2_cross_not_trap :
    (validate_state [['G'], ['-'], ['F']]).1 = _unfinished ∧
    move 10 [['G'], ['-'], ['F']] 'j' =
      .ok (_defeated, [['Y'], ['-'], ['F']]) ∧
    (validate_state [['G'], ['+'], ['F']]).1 = _unfinished ∧
    move 10 [['G'], ['+'], ['F']] 'j' =
      .ok (_invalid, [['G'], ['+'], ['F']]) ∧
    _invalid ≠ _defeated :=
  ⟨by decide, by rfl, by decide, by rfl, by decide⟩

/-- C4: the final beam layout depends on the order the emitters are
processed in.  On the grid with rows dot v dot and gt dot lt the code's own
collection order (all left emitters, then right, then up, then down) leaves
a Cross at the middle cell, while the permutation that traces the down
emitter before the right emitter leaves a Horizontal there, because a trace
that passes through an existing Cross overwrites it with its own beam
character.  The two emitter lists are permutations of each other yet give
different grids, refuting the order-independence property. -/
theorem C4_order_dependent :
    collect_lasers [['.', 'v', '.'], ['>', '.', '<']] =
      [((1 : Int), (2 : Int), 'h'), ((1 : Int), (0 : Int), 'l'),
        ((0 : Int), (1 : Int), 'j')] ∧
    List.Perm
      [((1 : Int), (2 : Int), 'h'), ((1 : Int), (0 : Int), 'l'),
        ((0 : Int), (1 : Int), 'j')]
      [((1 : Int), (2 : Int), 'h'), ((0 : Int), (1 : Int), 'j'),
        ((1 : Int), (0 : Int), 'l')] ∧
    trace_all 100 2 3 [['.', 'v', '.'], ['>', '.', '<']]
      [((1 : Int), (2 : Int), 'h'), ((1 : Int), (0 : Int), 'l'),
        ((0 : Int), (1 : Int), 'j')] =
      .ok [['.', 'v', '.'], ['>', '+', '<']] ∧
    trace_all 100 2 3 [['.', 'v', '.'], ['>', '.', '<']]
      [((1 : Int), (2 : Int), 'h'), ((0 : Int), (1 : Int), 'j'),
        ((1 : Int), (0 : Int), 'l')] =
      .ok [['.', 'v', '.'], ['>', '-', '<']] ∧
    ([['.', 'v', '.'], ['>', '+', '<']] : Grid) ≠
      [['.', 'v', '.'], ['>', '-', '<']] :=
  ⟨by rfl, by decide, by rfl, by rfl, by decide⟩

/-- C5 counterexample: with a rightward emitter and a SlidingWeight two
cells ahead, one update_lasers call marks only the cell before the weight;
the cell after the weight stays a Trail dot, so the trace stopped at the
SlidingWeight, refuting the claim that it passes through. -/
theorem C5_counterexample :
    update_lasers 100 [['>', '.', 'w', '.']] = .ok [['>', '-', 'w', '.']] ∧
    at_posE [['>', '-', 'w', '.']] 0 3 = .ok '.' ∧
    ('.' : Char) ≠ '-' :=
  ⟨by rfl, by rfl, by decide⟩

/-- C5 (amended): a SlidingWeight is laser-blocking: a beam trace that
reaches an in-bounds SlidingWeight cell stops there immediately without
marking it or anything beyond, leaving the grid unchanged, because the
lowercase w is part of the laser obstacle set of the source. -/
theorem C5_amended (fuel : Nat) (s : Grid) (dir : Char) (row col : Int)
    (height width : Nat)
    (hb : in_bounds height width row col = true)
    (hw : at_posE s row col = .ok 'w') :
    trace_loop (fuel + 1) s dir row col height width = .ok s := by
  unfold trace_loop
  rw [if_pos hb, hw]
  simp only []
  rw [if_neg (by simp), if_neg (by simp), if_neg (by decide),
    if_pos (by decide)]

/-- C5 witness: a beam trace standing on the single SlidingWeight cell of a
one-cell grid stops at once and returns the grid unchanged. -/
theorem C5_witness : trace_loop 5 [['w']] 'l' 0 0 1 1 = .ok [['w']] :=
  C5_amended 4 [['w']] 'l' 0 0 1 1 (by rfl) (by rfl)

/-- C6 counterexample: on the one-by-five grid Ram, Floor, Floor, Floor,
Finish the direction sequence l l l l ends with Trail, Trail, Trail,
RamVictorious, Finish and the Victory status: the ram stops on the tile
before the Finish flag, so the grid is not the claimed Trail, Trail, Trail,
Trail, RamVictorious; further rightward moves leave the grid unchanged. -/
theorem C6_counterexample :
    run_moves 100 [['G', ' ', ' ', ' ', 'F']] _unfinished
      ['l', 'l', 'l', 'l'] = .ok (_victory, [['.', '.', '.', '@', 'F']]) ∧
    move 100 [['.', '.', '.', '@', 'F']] 'l' =
      .ok (_victory, [['.', '.', '.', '@', 'F']]) ∧
    ([['.', '.', '.', '@', 'F']] : Grid) ≠ [['.', '.', '.', '.', '@']] :=
  ⟨by rfl, by rfl, by decide⟩

/-- C6 (amended): on the one-by-five grid Ram, Floor, Floor, Floor, Finish
the direction sequence l l l l ends with the grid Trail, Trail, Trail,
RamVictorious, Finish and the Victory status: the first move already slides
the ram to the tile adjacent to Finish and converts that tile to
RamVictorious, the Finish tile stays, and once the status is Victory a
repeated move leaves the state unchanged. -/
theorem C6_amended :
    run_moves 100 [['G', ' ', ' ', ' ', 'F']] _unfinished
      ['l', 'l', 'l', 'l'] = .ok (_victory, [['.', '.', '.', '@', 'F']]) ∧
    move 100 [['.', '.', '.', '@', 'F']] 'l' =
      .ok (_victory, [['.', '.', '.', '@', 'F']]) :=
  ⟨by rfl, by rfl⟩

/-- C7 counterexample: the left-pointing emitter of the row lt dot dot dot
G beams away from the ram, so its trace leaves the grid at once: one
update_lasers call returns the grid unchanged, the ram is still alive, and
no beam tiles appear, refuting the claimed layout. -/
theorem C7_counterexample :
    update_lasers 100 [['<', '.', '.', '.', 'G']] =
      .ok [['<', '.', '.', '.', 'G']] ∧
    at_posE [['<', '.', '.', '.', 'G']] 0 4 = .ok 'G' ∧
    ([['<', '.', '.', '.', 'G']] : Grid) ≠ [['<', '-', '-', '-', 'Y']] :=
  ⟨by rfl, by rfl, by decide⟩

/-- C7 (amended): with the ram on the side the emitter actually beams
toward, the row G dot dot dot lt, one update_lasers call places Horizontal
beam tiles on every tile between emitter and ram and converts the ram tile
to RamDefeated without any movement call. -/
theorem C7_amended :
    update_lasers 100 [['G', '.', '.', '.', '<']] =
      .ok [['Y', '-', '-', '-', '<']] := by rfl

/-! ### Characterisation of the validator scan -/

theorem vcell_fields (st : VScan) (i j : Nat) (c : Char) :
    (vcell st i j c).goat = st.goat + (if actor_char c then 1 else 0) ∧
    (vcell st i j c).finish = st.finish + (if c == 'F' then 1 else 0) ∧
    (vcell st i j c).victory = (st.victory || (c == '@')) ∧
    (vcell st i j c).defeated = (st.defeated || (c == 'Y')) ∧
    (vcell st i j c).invalid = (st.invalid || !(valid_char c)) := by
  by_cases h1 : (c == 'G') = true
  · have hc := beq_iff_eq.mp h1
    subst hc
    simp [vcell, actor_char, valid_char]
  · by_cases h2 : (c == 'Y') = true
    · have hc := beq_iff_eq.mp h2
      subst hc
      simp [vcell, actor_char, valid_char]
    · by_cases h3 : (c == '@') = true
      · have hc := beq_iff_eq.mp h3
        subst hc
        simp [vcell, actor_char, valid_char]
      · by_cases h4 : (c == 'F') = true
        · have hc := beq_iff_eq.mp h4
          subst hc
          simp [vcell, actor_char, valid_char]
        · by_cases h0 : valid_char c = true
          · simp [vcell, actor_char, h0, h1, h2, h3, h4]
          · simp [vcell, actor_char, h0, h1, h2, h3, h4]

theorem vscan_row_fields (i : Nat) :
    ∀ (l : List Char) (j : Nat) (st : VScan),
      (vscan_row i j st l).goat = st.goat + l.countP actor_char ∧
      (vscan_row i j st l).finish =
        st.finish + l.countP (fun c => c == 'F') ∧
      (vscan_row i j st l).victory =
        (st.victory || l.any (fun c => c == '@')) ∧
      (vscan_row i j st l).defeated =
        (st.defeated || l.any (fun c => c == 'Y')) ∧
      (vscan_row i j st l).invalid =
        (st.invalid || l.any (fun c => !(valid_char c))) := by
  intro l
  induction l with
  | nil =>
    intro j st
    simp [vscan_row, List.countP_nil]
  | cons c cs ih =>
    intro j st
    unfold vscan_row
    obtain ⟨g1, g2, g3, g4, g5⟩ := ih (j + 1) (vcell st i j c)
    obtain ⟨f1, f2, f3, f4, f5⟩ := vcell_fields st i j c
    refine ⟨?_, ?_, ?_, ?_, ?_⟩
    · rw [g1, f1, List.countP_cons]
      omega
    · rw [g2, f2, List.countP_cons]
      omega
    · rw [g3, f3, List.any_cons, Bool.or_assoc]
    · rw [g4, f4, List.any_cons, Bool.or_assoc]
    · rw [g5, f5, List.any_cons, Bool.or_assoc]

theorem vscan_rows_fields :
    ∀ (s : Grid) (i : Nat) (st : VScan),
      (vscan_rows i st s).goat = st.goat + s.flatten.countP actor_char ∧
      (vscan_rows i st s).finish =
        st.finish + s.flatten.countP (fun c => c == 'F') ∧
      (vscan_rows i st s).victory =
        (st.victory || s.flatten.any (fun c => c == '@')) ∧
      (vscan_rows i st s).defeated =
        (st.defeated || s.flatten.any (fun c => c == 'Y')) ∧
      (vscan_rows i st s).invalid =
        (st.invalid || s.flatten.any (fun c => !(valid_char c))) := by
  intro s
  induction s with
  | nil =>
    intro i st
    simp [vscan_rows]
  | cons r rs ih =>
    intro i st
    unfold vscan_rows
    obtain ⟨g1, g2, g3, g4, g5⟩ := ih (i + 1) (vscan_row i 0 st r)
    obtain ⟨f1, f2, f3, f4, f5⟩ := vscan_row_fields i r 0 st
    refine ⟨?_, ?_, ?_, ?_, ?_⟩
    · rw [g1, f1, List.flatten_cons, List.countP_append]
      omega
    · rw [g2, f2, List.flatten_cons, List.countP_append]
      omega
    · rw [g3, f3, List.flatten_cons, List.any_append, Bool.or_assoc]
    · rw [g4, f4, List.flatten_cons, List.any_append, Bool.or_assoc]
    · rw [g5, f5, List.flatten_cons, List.any_append, Bool.or_assoc]

theorem vscan_fields (s : Grid) :
    (vscan s).goat = actor_count s ∧
    (vscan s).finish = finish_count s ∧
    (vscan s).victory = s.flatten.any (fun c => c == '@') ∧
    (vscan s).defeated = s.flatten.any (fun c => c == 'Y') ∧
    (vscan s).invalid = s.flatten.any (fun c => !(valid_char c)) := by
  obtain ⟨g1, g2, g3, g4, g5⟩ := vscan_rows_fields s 0 ⟨false, 0, false, false, 0, []⟩
  unfold vscan actor_count finish_count grid_countP
  exact ⟨by rw [g1]; simp, by rw [g2]; simp, by rw [g3]; simp,
    by rw [g4]; simp, by rw [g5]; simp⟩

theorem find_bad_row_none {len0 : Nat} :
    ∀ (s : Grid) (i : Nat), (∀ r ∈ s, r.length = len0) →
      find_bad_row len0 i s = none := by
  intro s
  induction s with
  | nil => intro i hall; rfl
  | cons r rs ih =>
    intro i hall
    unfold find_bad_row
    rw [if_neg (by simp [hall r (List.mem_cons_self r rs)])]
    exact ih (i + 1) (fun r2 hr2 => hall r2 (List.mem_cons_of_mem r hr2))

theorem find_bad_row_some {len0 : Nat} :
    ∀ (s : Grid) (i : Nat), (∃ r ∈ s, r.length ≠ len0) →
      ∃ j rl, find_bad_row len0 i s = some (j, rl) ∧ i ≤ j ∧
        ∃ r, s.get? (j - i) = some r ∧ r.length = rl ∧ rl ≠ len0 := by
  intro s
  induction s with
  | nil => intro i hbad; simp at hbad
  | cons r rs ih =>
    intro i hbad
    unfold find_bad_row
    by_cases hr : r.length ≠ len0
    · rw [if_pos (by simpa using hr)]
      exact ⟨i, r.length, rfl, le_refl i, r, by simp, rfl, hr⟩
    · rw [if_neg (by simpa using hr)]
      have hbad2 : ∃ r2 ∈ rs, r2.length ≠ len0 := by
        obtain ⟨r2, hm, hl⟩ := hbad
        rcases List.mem_cons.mp hm with he | hm2
        · subst he; exact absurd hl hr
        · exact ⟨r2, hm2, hl⟩
      obtain ⟨j, rl, h1, h2, r2, h3, h4, h5⟩ := ih (i + 1) hbad2
      refine ⟨j, rl, h1, by omega, r2, ?_, h4, h5⟩
      have : j - i = (j - (i + 1)) + 1 := by omega
      rw [this]
      exact h3

/-- C8: validate_state returns Invalid for rows of unequal length (reporting
both lengths in its message), for a grid containing a character outside the
valid tile set (this case is missing from the original claim), for zero
Finish tiles, and for an actor count different from one (reporting the
count); otherwise it returns Victory when the single actor is the
victorious ram, Defeated when it is the defeated ram, else Unfinished. -/
theorem C8_amended (s : Grid) (hne : s ≠ []) :
    ((∃ r ∈ s, r.length ≠ (s.headD []).length) →
      (validate_state s).1 = _invalid ∧
      ∃ j rl r, s.get? j = some r ∧ r.length = rl ∧
        rl ≠ (s.headD []).length ∧
        (validate_state s).2 =
          [unequal_msg j rl (s.headD []).length, unequal_msg2]) ∧
    ((∀ r ∈ s, r.length = (s.headD []).length) →
      (∃ c ∈ s.flatten, valid_char c = false) →
      (validate_state s).1 = _invalid) ∧
    ((∀ r ∈ s, r.length = (s.headD []).length) →
      (∀ c ∈ s.flatten, valid_char c = true) →
      finish_count s = 0 → (validate_state s).1 = _invalid) ∧
    ((∀ r ∈ s, r.length = (s.headD []).length) →
      (∀ c ∈ s.flatten, valid_char c = true) →
      finish_count s ≠ 0 → actor_count s ≠ 1 →
      (validate_state s).1 = _invalid ∧
      goat_count_msg (actor_count s) ∈ (validate_state s).2) ∧
    ((∀ r ∈ s, r.length = (s.headD []).length) →
      (∀ c ∈ s.flatten, valid_char c = true) →
      finish_count s ≠ 0 → actor_count s = 1 →
      (('@' ∈ s.flatten → (validate_state s).1 = _victory) ∧
        ('@' ∉ s.flatten → 'Y' ∈ s.flatten →
          (validate_state s).1 = _defeated) ∧
        ('@' ∉ s.flatten → 'Y' ∉ s.flatten →
          (validate_state s).1 = _unfinished))) := by
  obtain ⟨fgoat, ffin, fvic, fdef, finv⟩ := vscan_fields s
  refine ⟨?_, ?_, ?_, ?_, ?_⟩
  · intro hbad
    obtain ⟨j, rl, hfind, _, r, hget, hrl, hrlne⟩ :=
      find_bad_row_some s 0 hbad
    simp only [Nat.sub_zero] at hget
    have hval : validate_state s =
        (_invalid, [unequal_msg j rl (s.headD []).length, unequal_msg2]) := by
      unfold validate_state
      simp only []
      rw [hfind]
    rw [hval]
    exact ⟨rfl, j, rl, r, hget, hrl, hrlne, rfl⟩
  · intro hall hinv
    have hnone := find_bad_row_none s 0 hall
    have hinvt : (vscan s).invalid = true := by
      rw [finv]
      obtain ⟨c, hc, hcv⟩ := hinv
      exact List.any_eq_true.mpr ⟨c, hc, by rw [hcv]; rfl⟩
    unfold validate_state
    simp only []
    rw [hnone]
    simp only []
    rw [if_pos hinvt]
  · intro hall hvalid hfin
    have hnone := find_bad_row_none s 0 hall
    have hinvf : (vscan s).invalid = false := by
      rw [finv]
      rw [List.any_eq_false]
      intro c hc
      rw [hvalid c hc]
      decide
    unfold validate_state
    simp only []
    rw [hnone]
    simp only []
    rw [if_neg (by rw [hinvf]; simp)]
    rw [if_pos (by rw [ffin, hfin]; rfl)]
  · intro hall hvalid hfin hgoat
    have hnone := find_bad_row_none s 0 hall
    have hinvf : (vscan s).invalid = false := by
      rw [finv]
      rw [List.any_eq_false]
      intro c hc
      rw [hvalid c hc]
      decide
    have hval : validate_state s =
        (_invalid, (vscan s).msgs ++
          [goat_count_msg (vscan s).goat, goat_count_msg2]) := by
      unfold validate_state
      simp only []
      rw [hnone]
      simp only []
      rw [if_neg (by rw [hinvf]; simp)]
      rw [if_neg (by rw [ffin]; simpa using hfin)]
      rw [if_pos (by rw [fgoat]; exact hgoat)]
    rw [hval]
    refine ⟨rfl, ?_⟩
    rw [fgoat]
    exact List.mem_append_right _ (List.mem_cons_self _ _)
  · intro hall hvalid hfin hgoat
    have hnone := find_bad_row_none s 0 hall
    have hinvf : (vscan s).invalid = false := by
      rw [finv]
      rw [List.any_eq_false]
      intro c hc
      rw [hvalid c hc]
      decide
    refine ⟨?_, ?_, ?_⟩
    · intro hvic
      unfold validate_state
      simp only []
      rw [hnone]
      simp only []
      rw [if_neg (by rw [hinvf]; simp)]
      rw [if_neg (by rw [ffin]; simpa using hfin)]
      rw [if_neg (by rw [fgoat]; simp [hgoat])]
      rw [if_pos (by
        rw [fvic]
        exact List.any_eq_true.mpr ⟨'@', hvic, by rfl⟩)]
    · intro hvic hdef
      unfold validate_state
      simp only []
      rw [hnone]
      simp only []
      rw [if_neg (by rw [hinvf]; simp)]
      rw [if_neg (by rw [ffin]; simpa using hfin)]
      rw [if_neg (by rw [fgoat]; simp [hgoat])]
      rw [if_neg (by
        rw [fvic]
        simp only [Bool.not_eq_true]
        rw [List.any_eq_false]
        intro c hc
        exact fun he => hvic ((beq_iff_eq.mp he) ▸ hc))]
      rw [if_pos (by
        rw [fdef]
        exact List.any_eq_true.mpr ⟨'Y', hdef, by rfl⟩)]
    · intro hvic hdef
      unfold validate_state
      simp only []
      rw [hnone]
      simp only []
      rw [if_neg (by rw [hinvf]; simp)]
      rw [if_neg (by rw [ffin]; simpa using hfin)]
      rw [if_neg (by rw [fgoat]; simp [hgoat])]
      rw [if_neg (by
        rw [fvic]
        simp only [Bool.not_eq_true]
        rw [List.any_eq_false]
        intro c hc
        exact fun he => hvic ((beq_iff_eq.mp he) ▸ hc))]
      rw [if_neg (by
        rw [fdef]
        simp only [Bool.not_eq_true]
        rw [List.any_eq_false]
        intro c hc
        exact fun he => hdef ((beq_iff_eq.mp he) ▸ hc))]

/-- C8 witness: the two-row grid with rows G F and x has unequal row
lengths, so validate_state reports Invalid; the one-row grid with two rams
G F G has actor count two, so validate_state reports Invalid and its
message list contains the count message for two. -/
theorem C8_witness :
    (validate_state [['G', 'F'], ['x']]).1 = _invalid ∧
    (validate_state [['G', 'F', 'G']]).1 = _invalid ∧
    goat_count_msg 2 ∈ (validate_state [['G', 'F', 'G']]).2 :=
  ⟨((C8_amended [['G', 'F'], ['x']] (by decide)).1
      ⟨['x'], by simp, by decide⟩).1,
    ((C8_amended [['G', 'F', 'G']] (by decide)).2.2.2.1
      (by decide) (by decide) (by decide) (by decide)).1,
    ((C8_amended [['G', 'F', 'G']] (by decide)).2.2.2.1
      (by decide) (by decide) (by decide) (by decide)).2⟩

/-- C8 counterexample: the one-row grid G Z F has equal row lengths, a
Finish tile and exactly one actor, so the claim as stated would make
validate return Unfinished, but Z is outside the valid character set and
the code returns Invalid. -/
theorem C8_counterexample :
    (validate_state [['G', 'Z', 'F']]).1 = _invalid ∧ _invalid ≠ _unfinished :=
  ⟨by decide, by decide⟩
